import Mathlib

/-!
Shallow embedding of the Inventory Ledger of `src/doodle.js` (an Express app
over Google Sheets) together with theorems settling the specification claims.

Modelling conventions:
* JavaScript strings are modelled as `List Char` (`JStr`); `toLowerCase`,
  `trim`, `startsWith`, `substring` and `includes` become list operations.
* The five logical tables are lists of rows held in a `LedgerState`; the
  Google Sheets adapter's row addressing (1-based, header = row 1, so data
  row `N` has sheet position `N + 2` when the code slices the header away)
  is kept in the definitions, converted to list indices exactly as the
  source converts them.
* Asynchronous adapter calls that can fail are driven by an explicit
  `FailSpec` oracle; a call that the source wraps in `try`/`catch` leaves
  the state unchanged when its flag is set.  Issued calls are recorded in an
  event trace (`Ev`) so that ordering claims can be stated.
* Timestamps of activity records are not modelled (they come from the system
  clock and no claim depends on them).
-/

/-- JavaScript strings, modelled as lists of characters. -/
abbrev JStr := List Char

/-- Coerce a Lean string literal to the `JStr` model. -/
def jstr (s : String) : JStr := s.data

/-- The upper/lower pairs of the ASCII alphabet. -/
def lowerPairs : List (Char × Char) :=
  [('A', 'a'), ('B', 'b'), ('C', 'c'), ('D', 'd'), ('E', 'e'), ('F', 'f'),
   ('G', 'g'), ('H', 'h'), ('I', 'i'), ('J', 'j'), ('K', 'k'), ('L', 'l'),
   ('M', 'm'), ('N', 'n'), ('O', 'o'), ('P', 'p'), ('Q', 'q'), ('R', 'r'),
   ('S', 's'), ('T', 't'), ('U', 'u'), ('V', 'v'), ('W', 'w'), ('X', 'x'),
   ('Y', 'y'), ('Z', 'z')]

/-- Models character lowering as performed by JavaScript
`String.prototype.toLowerCase` on the ASCII range: the 26 upper-case ASCII
letters map to their lower-case forms, every other character is unchanged
(non-ASCII case mappings are outside the model's alphabet). -/
def lowerChar (c : Char) : Char :=
  ((lowerPairs.find? (fun q => q.1 == c)).map Prod.snd).getD c

/-- Models `s.toLowerCase()`. -/
def lowerStr (s : JStr) : JStr := s.map lowerChar

/-- Models `s.trim()`: strip leading and trailing whitespace. -/
def jsTrim (s : JStr) : JStr :=
  ((s.dropWhile Char.isWhitespace).reverse.dropWhile Char.isWhitespace).reverse

/-- Models `String.prototype.includes`: `needle` occurs as a contiguous
substring of `hay`. -/
def jsIncludes (hay needle : JStr) : Bool :=
  decide (needle <:+: hay)

/-- Source `normalizeDose` (doodle.js line 8): `(dose || "").replace(/\s+/g,
"").toLowerCase()` — drop all whitespace, then lowercase. -/
def normalizeDose (dose : JStr) : JStr :=
  lowerStr (dose.filter (fun c => !c.isWhitespace))

/-- Source `isAngieMode` (line 272): `name.startsWith("sparkles++")`. -/
def isAngieMode (name : JStr) : Bool :=
  (jstr "sparkles++").isPrefixOf name

/-- Source `stripPlusPlus` (line 275): remove the `sparkles++` sentinel when
present, otherwise return the name unchanged. -/
def stripPlusPlus (name : JStr) : JStr :=
  if (jstr "sparkles++").isPrefixOf name then name.drop (jstr "sparkles++").length
  else name

/-- The location-keyword heuristic used by `/add-medication` (line 1170) and
the quick-add restore path (line 979): `location.toLowerCase().includes("closet")`. -/
def containsCloset (location : JStr) : Bool :=
  jsIncludes (lowerStr location) (jstr "closet")

/-- A data row of an active-stock table (`File Meds` / `Closet Meds`,
columns A–D: name, dose, location, quantity). -/
structure Row where
  name : JStr
  dose : JStr
  location : JStr
  quantity : Int
deriving DecidableEq

/-- A data row of the `Angie Stash` table (columns A–C: name, dose, quantity). -/
structure SRow where
  name : JStr
  dose : JStr
  quantity : Int
deriving DecidableEq

/-- A row of the `Past Medication` archive table (columns A–C: name, dose,
last location). -/
structure ARow where
  name : JStr
  dose : JStr
  location : JStr
deriving DecidableEq

/-- An `Activity Records` entry (timestamp not modelled). -/
structure ActivityRecord where
  action : JStr
  name : JStr
  dose : JStr
  location : JStr
  quantity : Int
deriving DecidableEq

/-- The ledger's mutable state: the data rows of the five sheets.  Active
tables and the stash are stored without their header rows (every access in
the source slices the header off); `pastMeds` is the raw `A:C` row list of
`Past Medication` as fetched by `removeFromPastMedication`, which does not
slice the header. -/
structure LedgerState where
  fileMeds : List Row
  closetMeds : List Row
  angieStash : List SRow
  pastMeds : List ARow
  activity : List ActivityRecord
deriving DecidableEq

/-- Find the first element satisfying `p` together with its 0-based index;
models `Array.prototype.findIndex` combined with the element lookup. -/
def findIdxRow {α : Type} (p : α → Bool) : List α → Option (Nat × α)
  | [] => none
  | x :: xs => if p x then some (0, x) else (findIdxRow p xs).map (fun ir => (ir.1 + 1, ir.2))

/-- Replace the element at 0-based index `i` by `f` applied to it (identity
when out of range); models a single-cell update addressed by row position. -/
def modifyIdx {α : Type} : List α → Nat → (α → α) → List α
  | [], _, _ => []
  | x :: xs, 0, f => f x :: xs
  | x :: xs, n + 1, f => x :: modifyIdx xs n f

/-- The duplicate-search predicate of `/add-medication` (lines 1144–1147):
case-insensitive name and location, whitespace-and-case-insensitive dose. -/
def rowMatches (name dose location : JStr) (r : Row) : Bool :=
  lowerStr r.name == lowerStr name &&
  normalizeDose r.dose == normalizeDose dose &&
  lowerStr r.location == lowerStr location

/-- The archive-removal predicate of `removeFromPastMedication` (lines
122–126): case-insensitive comparison of all three columns. -/
def archiveMatches (name dose location : JStr) (r : ARow) : Bool :=
  lowerStr r.name == lowerStr name &&
  lowerStr r.dose == lowerStr dose &&
  lowerStr r.location == lowerStr location

/-- The stash match predicate of the aliased quick-add path (lines 909–911):
case-insensitive name and dose. -/
def stashEntryMatches (name dose : JStr) (r : SRow) : Bool :=
  lowerStr r.name == lowerStr name && lowerStr r.dose == lowerStr dose

/-- The indices pushed into `rowsToRemove` by `removeFromPastMedication`
(lines 120–130), collected in ascending scan order starting at `i`.  The
source pushes the 1-based sheet position `i + 1` and later deletes at
`rowIndex - 1`; the model works directly with the 0-based index `i`. -/
def matchedIndicesAux (p : ARow → Bool) : List ARow → Nat → List Nat
  | [], _ => []
  | r :: rs, i =>
      if p r then i :: matchedIndicesAux p rs (i + 1) else matchedIndicesAux p rs (i + 1)

/-- Insert into a descending-sorted list, keeping it descending. -/
def insertDesc (x : Nat) : List Nat → List Nat
  | [] => [x]
  | y :: ys => if x ≥ y then x :: y :: ys else y :: insertDesc x ys

/-- Models `rowsToRemove.sort((a, b) => b - a)` (line 135): sort the matched
positions in descending order. -/
def sortDesc (l : List Nat) : List Nat := l.foldr insertDesc []

/-- Source `removeFromPastMedication` (lines 109–166): fetch the archive
rows, compute all matching positions first, sort them descending, then issue
one row deletion per position.  Each deletion shifts the rows below it up by
one, which `List.eraseIdx` reproduces. -/
def removeFromPastMedication (name dose location : JStr) (rows : List ARow) : List ARow :=
  let idxs := matchedIndicesAux (archiveMatches name dose location) rows 0
  (sortDesc idxs).foldl (fun acc i => acc.eraseIdx i) rows

/-- Comparison key used to model the adapter's `sortRange` call issued by
`sortSheetByLocation` (lines 202–223): location ascending then name
ascending.  The exact collation of the external adapter is irrelevant to the
claims — only that sorting permutes the rows. -/
def charListLe : JStr → JStr → Bool
  | [], _ => true
  | _ :: _, [] => false
  | a :: as, b :: bs => if a < b then true else if b < a then false else charListLe as bs

/-- Row order for `sortSheetByLocation`: by location, then by name. -/
def rowLe (a b : Row) : Bool :=
  if a.location == b.location then charListLe a.name b.name
  else charListLe a.location b.location

/-- Insertion step of the sort model. -/
def insertRow (r : Row) : List Row → List Row
  | [] => [r]
  | x :: xs => if rowLe r x then r :: x :: xs else x :: insertRow r xs

/-- Models `sortSheetByLocation` (lines 183–228): resort a table's data rows
by (location, name), header excluded. -/
def sortRows (l : List Row) : List Row := l.foldr insertRow []

example : lowerStr (jstr "Angie Stash") = jstr "angie stash" := by decide
example : normalizeDose (jstr "5 MG") = jstr "5mg" := by decide
example : isAngieMode (jstr "sparkles++Ibuprofen") = true := by decide
example : stripPlusPlus (jstr "sparkles++Ibuprofen") = jstr "Ibuprofen" := by decide
example : containsCloset (jstr "Closet Shelf 2") = true := by decide
example : jsTrim (jstr "  Angie Stash ") = jstr "Angie Stash" := by decide
example :
    removeFromPastMedication (jstr "a") (jstr "d") (jstr "l")
      [⟨jstr "a", jstr "d", jstr "l"⟩, ⟨jstr "b", jstr "d", jstr "l"⟩,
       ⟨jstr "A", jstr "D", jstr "L"⟩] = [⟨jstr "b", jstr "d", jstr "l"⟩] := by decide

/-- Models `getSheetData`'s error recovery (lines 169–180): a failing table
read is logged and `[]` is returned instead of raising. -/
def getSheetDataModel (fails : Bool) (rows : List Row) : List Row :=
  if fails then [] else rows

/-- Source `/add-medication` handler (lines 1114–1184).  Aliased names append
straight to `Angie Stash` and log; otherwise the two active tables are
scanned in declaration order for a `(name, dose, location)` match
(`rowMatches`); a hit gets its quantity cell bumped, a miss removes matching
archive rows, appends to the heuristic-chosen table, resorts it and logs. -/
def addMedication (name dose location : JStr) (quantity : Int) (st : LedgerState) :
    LedgerState :=
  if isAngieMode name then
    let n := stripPlusPlus name
    { st with
      angieStash := st.angieStash ++ [⟨n, dose, quantity⟩]
      activity := ⟨jstr "ADD", n, dose, jstr "Angie Stash", quantity⟩ :: st.activity }
  else
    match findIdxRow (rowMatches name dose location) st.fileMeds with
    | some ir =>
        { st with
          fileMeds := modifyIdx st.fileMeds ir.1 (fun r => { r with quantity := ir.2.quantity + quantity })
          activity := ⟨jstr "ADD", name, dose, location, quantity⟩ :: st.activity }
    | none =>
        match findIdxRow (rowMatches name dose location) st.closetMeds with
        | some ir =>
            { st with
              closetMeds := modifyIdx st.closetMeds ir.1 (fun r => { r with quantity := ir.2.quantity + quantity })
              activity := ⟨jstr "ADD", name, dose, location, quantity⟩ :: st.activity }
        | none =>
            let st1 := { st with pastMeds := removeFromPastMedication name dose location st.pastMeds }
            if containsCloset location then
              { st1 with
                closetMeds := sortRows (st1.closetMeds ++ [⟨name, dose, location, quantity⟩])
                activity := ⟨jstr "ADD", name, dose, location, quantity⟩ :: st1.activity }
            else
              { st1 with
                fileMeds := sortRows (st1.fileMeds ++ [⟨name, dose, location, quantity⟩])
                activity := ⟨jstr "ADD", name, dose, location, quantity⟩ :: st1.activity }

/-- One row of the `/quick-add-update` form (hidden inputs rendered by
`/quick-add`).  `rowIndex` is the sheet row the form carries (data row
index + 2); `addQty` is the parsed `parseInt(item.addQty) || 0`. -/
structure QuickItem where
  sheetName : JStr
  rowIndex : Nat
  name : JStr
  dose : JStr
  location : JStr
  quantity : Int
  addQty : Int
  originalLocation : JStr
deriving DecidableEq

/-- The single-cell quantity update issued by the quick-add and consume
handlers: `Angie Stash` uses column C, other tables column D, addressed by
the sheet row carried in the form (`rowIndex`, data row `rowIndex - 2`).  A
sheet name other than the three stock tables makes the adapter call fail
(unknown range), leaving the state unchanged. -/
def updateQuantityInSheet (st : LedgerState) (sheet : JStr) (rowIndex : Nat) (newQty : Int) :
    LedgerState :=
  if sheet == jstr "Angie Stash" then
    { st with angieStash := modifyIdx st.angieStash (rowIndex - 2) (fun r => { r with quantity := newQty }) }
  else if sheet == jstr "File Meds" then
    { st with fileMeds := modifyIdx st.fileMeds (rowIndex - 2) (fun r => { r with quantity := newQty }) }
  else if sheet == jstr "Closet Meds" then
    { st with closetMeds := modifyIdx st.closetMeds (rowIndex - 2) (fun r => { r with quantity := newQty }) }
  else st

/-- Source `/quick-add-update` handler, one form row (lines 895–1029).
Skips rows with an empty name or a non-positive parsed `addQty`; aliased
names merge into or append to the stash (note the source looks the row up in
the *filtered* stash view, `getAngiesStashFiltered`, whose `rowIndex` is the
position within the filtered list); `Past Medication` rows are restored —
archive rows matching `(name, dose, originalLocation)` are deleted first,
then the item is appended to the stash when `originalLocation` is the stash
label (ignoring the chosen location) or to the heuristic-chosen active table
otherwise; any other row is a fast-path restock addressed by
`(sheetName, rowIndex)`. -/
def processQuickItem (item : QuickItem) (st : LedgerState) : LedgerState :=
  if item.name == [] then st
  else if item.addQty ≤ 0 then st
  else if isAngieMode item.name then
    let cleanName := stripPlusPlus item.name
    let filtered := st.angieStash.filter (fun r => jsIncludes (lowerStr r.name) (lowerStr cleanName))
    match findIdxRow (stashEntryMatches cleanName item.dose) filtered with
    | some ir =>
        { st with
          angieStash := modifyIdx st.angieStash ir.1 (fun r => { r with quantity := ir.2.quantity + item.addQty })
          activity := ⟨jstr "ADD", cleanName, item.dose, jstr "Angie Stash", item.addQty⟩ :: st.activity }
    | none =>
        { st with
          angieStash := st.angieStash ++ [⟨cleanName, item.dose, item.addQty⟩]
          activity := ⟨jstr "ADD", cleanName, item.dose, jstr "Angie Stash", item.addQty⟩ :: st.activity }
  else if item.sheetName == jstr "Past Medication" then
    let isAngiePast := lowerStr (jsTrim item.originalLocation) == jstr "angie stash"
    let st1 := { st with
      pastMeds := removeFromPastMedication item.name item.dose item.originalLocation st.pastMeds }
    if isAngiePast then
      { st1 with
        angieStash := st1.angieStash ++ [⟨item.name, item.dose, item.addQty⟩]
        activity := ⟨jstr "ADD", item.name, item.dose, jstr "Angie Stash", item.addQty⟩ :: st1.activity }
    else
      let location := item.location
      if containsCloset location then
        { st1 with
          closetMeds := sortRows (st1.closetMeds ++ [⟨item.name, item.dose, location, item.addQty⟩])
          activity := ⟨jstr "ADD", item.name, item.dose, location, item.addQty⟩ :: st1.activity }
      else
        { st1 with
          fileMeds := sortRows (st1.fileMeds ++ [⟨item.name, item.dose, location, item.addQty⟩])
          activity := ⟨jstr "ADD", item.name, item.dose, location, item.addQty⟩ :: st1.activity }
  else
    let newQty := item.quantity + item.addQty
    let st1 := updateQuantityInSheet st item.sheetName item.rowIndex newQty
    { st1 with activity := ⟨jstr "ADD", item.name, item.dose, item.location, item.addQty⟩ :: st1.activity }

/-- One row of the `/update` (consume) form.  `qty` is `none` when the field
is absent (`item.qty === undefined`); otherwise the parsed integer
(`parseInt(item.qty) || 0` turns an unparsable field into `0`, which the
handler then skips — but a negative integer parses and is truthy). -/
structure UpdateItem where
  sheetName : JStr
  rowIndex : Nat
  name : JStr
  dose : JStr
  location : JStr
  quantity : Int
  qty : Option Int
deriving DecidableEq

/-- Store calls issued while processing one consume row, in issue order. -/
inductive Ev where
  | logRemove (name dose location : JStr) (q : Int)
  | archiveAppend (name dose location : JStr)
  | rowDelete (sheet : JStr) (rowIndex : Nat)
  | cellUpdate (sheet : JStr) (rowIndex : Nat) (q : Int)
deriving DecidableEq

/-- Whether an event is the audit write (as opposed to a store mutation). -/
def Ev.isAudit : Ev → Bool
  | .logRemove _ _ _ _ => true
  | _ => false

/-- Failure oracle for the adapter calls of one consume row. -/
structure FailSpec where
  archiveAppendFails : Bool
  sheetIdLookupFails : Bool
  deleteFails : Bool
  updateFails : Bool
deriving DecidableEq

/-- The all-success oracle. -/
def noFail : FailSpec := ⟨false, false, false, false⟩

/-- The sheet names the consume form can carry; `getSheetIdByName` resolves
exactly the existing sheets, and `/search` only renders rows of these three
stock tables. -/
def knownSheet (s : JStr) : Bool :=
  s == jstr "File Meds" || s == jstr "Closet Meds" || s == jstr "Angie Stash"

/-- Delete the data row at sheet position `rowIndex` (data row
`rowIndex - 2`) from the named stock table; models the `deleteDimension`
batch update of `/update` (lines 1063–1079). -/
def deleteRowInSheet (st : LedgerState) (sheet : JStr) (rowIndex : Nat) : LedgerState :=
  if sheet == jstr "File Meds" then
    { st with fileMeds := st.fileMeds.eraseIdx (rowIndex - 2) }
  else if sheet == jstr "Closet Meds" then
    { st with closetMeds := st.closetMeds.eraseIdx (rowIndex - 2) }
  else if sheet == jstr "Angie Stash" then
    { st with angieStash := st.angieStash.eraseIdx (rowIndex - 2) }
  else st

/-- The state after step 2 of a consume tuple: one REMOVE record, carrying
the requested (parsed) quantity, prepended to the activity log
(`logActivity` inserts the new row at the top, line 75). -/
def consumeLogged (item : UpdateItem) (st : LedgerState) : LedgerState :=
  { st with
    activity := ⟨jstr "REMOVE", item.name, item.dose, item.location, item.qty.getD 0⟩ ::
      st.activity }

/-- The state after the archive append attempt of a consume-to-zero tuple:
`addToPastMedication` appends `(name, dose, location)` — and swallows its
own failure (lines 103–105), so a failed append leaves the archive
unchanged and processing continues. -/
def consumeArchived (fl : FailSpec) (item : UpdateItem) (st : LedgerState) : LedgerState :=
  if fl.archiveAppendFails then consumeLogged item st
  else
    { consumeLogged item st with
      pastMeds := st.pastMeds ++ [⟨item.name, item.dose, item.location⟩] }

/-- Source `/update` handler, one tuple (lines 1039–1109).  Skipped when a
required field is missing or the parsed quantity is `0` (`if (!qtyToTake)
continue` — note that only zero is falsy; negative values proceed).
Otherwise: log one REMOVE record first, then either archive-and-delete (on
`newQty ≤ 0`; the archive append swallows its own failure, a failed sheet-id
lookup skips the delete, a failed delete is caught) or update the quantity
cell (a failure is caught).  Returns the new state and the issued calls. -/
def processUpdateItem (fl : FailSpec) (item : UpdateItem) (st : LedgerState) :
    LedgerState × List Ev :=
  if item.sheetName == [] then (st, [])
  else if item.rowIndex == 0 then (st, [])
  else if item.qty.isNone then (st, [])
  else if item.qty.getD 0 == 0 then (st, [])
  else if max 0 (item.quantity - item.qty.getD 0) ≤ 0 then
    if fl.sheetIdLookupFails || !knownSheet item.sheetName then
      (consumeArchived fl item st,
       [Ev.logRemove item.name item.dose item.location (item.qty.getD 0),
        Ev.archiveAppend item.name item.dose item.location])
    else if fl.deleteFails then
      (consumeArchived fl item st,
       [Ev.logRemove item.name item.dose item.location (item.qty.getD 0),
        Ev.archiveAppend item.name item.dose item.location,
        Ev.rowDelete item.sheetName item.rowIndex])
    else
      (deleteRowInSheet (consumeArchived fl item st) item.sheetName item.rowIndex,
       [Ev.logRemove item.name item.dose item.location (item.qty.getD 0),
        Ev.archiveAppend item.name item.dose item.location,
        Ev.rowDelete item.sheetName item.rowIndex])
  else if fl.updateFails then
    (consumeLogged item st,
     [Ev.logRemove item.name item.dose item.location (item.qty.getD 0),
      Ev.cellUpdate item.sheetName item.rowIndex (max 0 (item.quantity - item.qty.getD 0))])
  else
    (updateQuantityInSheet (consumeLogged item st) item.sheetName item.rowIndex
        (max 0 (item.quantity - item.qty.getD 0)),
     [Ev.logRemove item.name item.dose item.location (item.qty.getD 0),
      Ev.cellUpdate item.sheetName item.rowIndex (max 0 (item.quantity - item.qty.getD 0))])

/-- The whole `/update` batch: tuples processed one at a time in form order,
traces concatenated. -/
def processUpdate (fl : FailSpec) : List UpdateItem → LedgerState → LedgerState × List Ev
  | [], st => (st, [])
  | item :: rest, st =>
      ((processUpdate fl rest (processUpdateItem fl item st).1).1,
       (processUpdateItem fl item st).2 ++
         (processUpdate fl rest (processUpdateItem fl item st).1).2)

example :
    (processUpdateItem noFail
      ⟨jstr "File Meds", 2, jstr "amoxicillin", jstr "500mg", jstr "cabinet 1", 10, some 10⟩
      ⟨[⟨jstr "amoxicillin", jstr "500mg", jstr "cabinet 1", 10⟩], [], [], [], []⟩).1
    = ⟨[], [], [], [⟨jstr "amoxicillin", jstr "500mg", jstr "cabinet 1"⟩],
        [⟨jstr "REMOVE", jstr "amoxicillin", jstr "500mg", jstr "cabinet 1", 10⟩]⟩ := by decide

/-- Total quantity of the rows matching `p`. -/
def sumQtyP (p : Row → Bool) (l : List Row) : Int :=
  ((l.filter p).map Row.quantity).sum

/-- An operation of the merge-uniqueness property: a New-Item-Merge
(`/add-medication`) or a fast-path Restock (`/quick-add-update` on a
current-stock row), each carrying its own submitted strings. -/
inductive StockOp where
  | merge (name dose location : JStr) (q : Int)
  | restock (name dose location : JStr) (q : Int)
deriving DecidableEq

/-- The submitted name of an operation. -/
def opName : StockOp → JStr
  | .merge n _ _ _ => n
  | .restock n _ _ _ => n

/-- The submitted dose of an operation. -/
def opDose : StockOp → JStr
  | .merge _ d _ _ => d
  | .restock _ d _ _ => d

/-- The submitted location of an operation. -/
def opLoc : StockOp → JStr
  | .merge _ _ l _ => l
  | .restock _ _ l _ => l

/-- The submitted quantity of an operation. -/
def opQty : StockOp → Int
  | .merge _ _ _ q => q
  | .restock _ _ _ q => q

/-- The operation targets the reference triple under the comparisons the
source actually performs: case-insensitive name and location,
case-and-whitespace-insensitive dose. -/
def targetsTriple (n₀ d₀ l₀ : JStr) (op : StockOp) : Prop :=
  lowerStr (opName op) = lowerStr n₀ ∧
  normalizeDose (opDose op) = normalizeDose d₀ ∧
  lowerStr (opLoc op) = lowerStr l₀

/-- The fast-path restock of `/quick-add-update`, invoked with an accurate
row reference: in a sequential (no-interleaving) run, the hidden form fields
of the `/quick-add` page carry the referenced row's current values, so a
restock targeting `(name, dose, location)` submits the first matching row of
`File Meds` then `Closet Meds` (the scan order of `getFilteredData`)
together with its current quantity and sheet position.  When no row matches,
the page offers no current-stock row and nothing is submitted. -/
def restockByRef (name dose location : JStr) (q : Int) (st : LedgerState) : LedgerState :=
  match findIdxRow (rowMatches name dose location) st.fileMeds with
  | some ir =>
      processQuickItem ⟨jstr "File Meds", ir.1 + 2, ir.2.name, ir.2.dose, ir.2.location,
        ir.2.quantity, q, ir.2.location⟩ st
  | none =>
      match findIdxRow (rowMatches name dose location) st.closetMeds with
      | some ir =>
          processQuickItem ⟨jstr "Closet Meds", ir.1 + 2, ir.2.name, ir.2.dose, ir.2.location,
            ir.2.quantity, q, ir.2.location⟩ st
      | none => st

/-- Apply one operation to the ledger. -/
def applyOp (st : LedgerState) : StockOp → LedgerState
  | .merge n d l q => addMedication n d l q st
  | .restock n d l q => restockByRef n d l q st

/-- Apply a sequence of operations in caller order. -/
def applyOps (ops : List StockOp) (st : LedgerState) : LedgerState :=
  ops.foldl applyOp st

/-- Invariant carried along a merge/restock sequence: the two active tables
hold exactly one row matching the reference triple, the matching quantities
sum to `total`, and every matching row carries a non-aliased, non-empty
name (so the fast-path restock's guards pass on it). -/
def ActiveInv (n₀ d₀ l₀ : JStr) (st : LedgerState) (total : Int) : Prop :=
  (st.fileMeds ++ st.closetMeds).countP (rowMatches n₀ d₀ l₀) = 1 ∧
  sumQtyP (rowMatches n₀ d₀ l₀) (st.fileMeds ++ st.closetMeds) = total ∧
  ∀ r ∈ st.fileMeds ++ st.closetMeds, rowMatches n₀ d₀ l₀ r = true →
    isAngieMode r.name = false ∧ r.name ≠ []

/-- The rows of the two active-stock tables, in scan order. -/
def activeRows (st : LedgerState) : List Row := st.fileMeds ++ st.closetMeds

/-- The empty ledger. -/
def emptyLedger : LedgerState := ⟨[], [], [], [], []⟩

/-- Modelled from the spec: §4.1 `normalize(s)` trims, lowercases, and
collapses internal whitespace.  No source function implements this; the
definition follows the specification's words and is used only to state the
claims that quantify over spec-normalized strings. -/
def specNormalize (s : JStr) : JStr :=
  List.intercalate [' '] (((lowerStr s).splitOnP Char.isWhitespace).filter (fun w => !w.isEmpty))

/-- Rows whose spec-normalized triple equals the given spec-normalized
target triple. -/
def specTripleMatches (name dose location : JStr) (r : Row) : Bool :=
  specNormalize r.name == specNormalize name &&
  specNormalize r.dose == specNormalize dose &&
  specNormalize r.location == specNormalize location

example : specNormalize (jstr "  Aspirin  500 MG ") = jstr "aspirin 500 mg" := by decide

theorem matchedIndicesAux_shift (p : ARow → Bool) (rows : List ARow) (i : Nat) :
    matchedIndicesAux p rows (i + 1) = (matchedIndicesAux p rows i).map (· + 1) := by
  induction rows generalizing i with
  | nil => simp [matchedIndicesAux]
  | cons r rs ih =>
      by_cases h : p r <;> simp [matchedIndicesAux, h, ih]

theorem matchedIndicesAux_lt (p : ARow → Bool) (rows : List ARow) (i : Nat) :
    List.Pairwise (· < ·) (matchedIndicesAux p rows i) := by
  induction rows generalizing i with
  | nil => simp [matchedIndicesAux]
  | cons r rs ih =>
      have hge : ∀ j ∈ matchedIndicesAux p rs (i + 1), i < j := by
        clear ih
        induction rs generalizing i with
        | nil => simp [matchedIndicesAux]
        | cons s ss ihs =>
            intro j hj
            by_cases hs : p s
            · simp only [matchedIndicesAux, hs, if_true, List.mem_cons] at hj
              rcases hj with rfl | hj
              · omega
              · have := ihs (i + 1) j hj; omega
            · simp only [matchedIndicesAux, hs, if_false] at hj
              have := ihs (i + 1) j hj; omega
      by_cases h : p r
      · simp only [matchedIndicesAux, h, if_true]
        exact List.Pairwise.cons hge (ih (i + 1))
      · simp only [matchedIndicesAux, h, if_false]
        exact ih (i + 1)

theorem insertDesc_of_lt (x : Nat) (m : List Nat) (h : ∀ y ∈ m, x < y) :
    insertDesc x m = m ++ [x] := by
  induction m with
  | nil => rfl
  | cons y ys ih =>
      have hy : x < y := h y (List.mem_cons_self y ys)
      have : ¬ x ≥ y := by omega
      simp only [insertDesc, this, if_false, List.cons_append]
      rw [ih (fun z hz => h z (List.mem_cons_of_mem y hz))]

theorem sortDesc_of_sorted (l : List Nat) (h : List.Pairwise (· < ·) l) :
    sortDesc l = l.reverse := by
  induction l with
  | nil => rfl
  | cons x xs ih =>
      rcases List.pairwise_cons.mp h with ⟨hx, hxs⟩
      show insertDesc x (sortDesc xs) = (x :: xs).reverse
      rw [ih hxs, insertDesc_of_lt]
      · simp
      · intro y hy
        exact hx y (List.mem_reverse.mp hy)

theorem foldr_eraseIdx_map_succ (r : ARow) (rs : List ARow) (ds : List Nat) :
    List.foldr (fun i acc => acc.eraseIdx i) (r :: rs) (ds.map (· + 1)) =
      r :: List.foldr (fun i acc => acc.eraseIdx i) rs ds := by
  induction ds with
  | nil => rfl
  | cons d ds ih => simp [ih, List.eraseIdx]

theorem foldr_eraseIdx_matched (p : ARow → Bool) (rows : List ARow) :
    List.foldr (fun i acc => acc.eraseIdx i) rows (matchedIndicesAux p rows 0) =
      rows.filter (fun r => !p r) := by
  induction rows with
  | nil => rfl
  | cons r rs ih =>
      by_cases h : p r
      · simp only [matchedIndicesAux, h, if_true, List.foldr_cons, List.filter_cons,
          Bool.not_eq_true', matchedIndicesAux_shift, foldr_eraseIdx_map_succ, ih]
        simp [List.eraseIdx, h]
      · have hb : p r = false := by
          cases hpr : p r
          · rfl
          · exact absurd hpr h
        simp only [matchedIndicesAux, hb, List.filter_cons, matchedIndicesAux_shift]
        rw [if_neg (by decide), foldr_eraseIdx_map_succ, ih, if_pos (by decide)]

/-- Claim C7: whenever more than one row of the same table is deleted in one
operation (archive removal with duplicate matching entries), all target
positions are computed first and the deletions are issued in strictly
descending position order, so each delete addresses the row identity
computed before any delete and the remaining rows' identities are unchanged:
`removeFromPastMedication` is exactly the removal of all matching rows, and
the issued deletion positions are strictly descending. -/
theorem remove_past_descending_delete_correct (name dose location : JStr) (rows : List ARow) :
    removeFromPastMedication name dose location rows =
      rows.filter (fun r => !(archiveMatches name dose location r)) ∧
    List.Pairwise (· > ·)
      (sortDesc (matchedIndicesAux (archiveMatches name dose location) rows 0)) := by
  constructor
  · show List.foldl (fun acc i => acc.eraseIdx i) rows
      (sortDesc (matchedIndicesAux (archiveMatches name dose location) rows 0)) = _
    rw [sortDesc_of_sorted _ (matchedIndicesAux_lt _ _ _), List.foldl_reverse]
    exact foldr_eraseIdx_matched _ _
  · rw [sortDesc_of_sorted _ (matchedIndicesAux_lt _ _ _)]
    rw [List.pairwise_reverse]
    exact matchedIndicesAux_lt _ _ _


theorem lowerPairs_not_ws :
    ∀ q ∈ lowerPairs, q.2.isWhitespace = false ∧ q.1.isWhitespace = false := by decide

theorem isWhitespace_lowerChar (c : Char) : (lowerChar c).isWhitespace = c.isWhitespace := by
  unfold lowerChar
  cases hfind : lowerPairs.find? (fun q => q.1 == c) with
  | none => rfl
  | some q =>
      have hq := List.find?_some hfind
      have hmem : q ∈ lowerPairs := List.mem_of_find?_eq_some hfind
      have hc : q.1 = c := by simpa using hq
      obtain ⟨h2, h1⟩ := lowerPairs_not_ws q hmem
      show q.2.isWhitespace = c.isWhitespace
      rw [h2, ← hc, h1]

theorem lower_filter_ws (l : JStr) :
    lowerStr (l.filter (fun c => !c.isWhitespace)) =
      (lowerStr l).filter (fun c => !c.isWhitespace) := by
  induction l with
  | nil => rfl
  | cons c cs ih =>
      simp only [List.filter_cons, List.map_cons, lowerStr] at ih ⊢
      rw [isWhitespace_lowerChar]
      cases h : c.isWhitespace
      · rw [if_pos (show (!false) = true by decide), if_pos (show (!false) = true by decide),
          List.map_cons, ih]
      · rw [if_neg (by decide), if_neg (by decide), ih]

theorem normalizeDose_eq_filter_lower (d : JStr) :
    normalizeDose d = (lowerStr d).filter (fun c => !c.isWhitespace) :=
  lower_filter_ws d

theorem normalizeDose_congr {d d' : JStr} (h : lowerStr d = lowerStr d') :
    normalizeDose d = normalizeDose d' := by
  rw [normalizeDose_eq_filter_lower, normalizeDose_eq_filter_lower, h]

theorem findIdxRow_none {α : Type} (p : α → Bool) (l : List α) :
    findIdxRow p l = none ↔ l.countP p = 0 := by
  induction l with
  | nil => simp [findIdxRow]
  | cons x xs ih =>
      by_cases h : p x
      · simp [findIdxRow, h, List.countP_cons]
      · simp [findIdxRow, h, List.countP_cons, ih]

theorem findIdxRow_some_mem {α : Type} (p : α → Bool) (l : List α) (i : Nat) (r : α)
    (h : findIdxRow p l = some (i, r)) : p r = true ∧ r ∈ l := by
  induction l generalizing i with
  | nil => simp [findIdxRow] at h
  | cons x xs ih =>
      by_cases hx : p x
      · rw [findIdxRow, if_pos hx] at h
        simp only [Option.some.injEq, Prod.mk.injEq] at h
        obtain ⟨rfl, rfl⟩ := h
        exact ⟨hx, List.mem_cons_self x xs⟩
      · rw [findIdxRow, if_neg hx] at h
        cases hfind : findIdxRow p xs with
        | none => rw [hfind] at h; simp at h
        | some jr =>
            obtain ⟨j, r'⟩ := jr
            rw [hfind] at h
            simp only [Option.map_some', Option.some.injEq, Prod.mk.injEq] at h
            obtain ⟨rfl, rfl⟩ := h
            obtain ⟨hp, hm⟩ := ih j hfind
            exact ⟨hp, List.mem_cons_of_mem x hm⟩

theorem countP_modifyIdx {α : Type} (p : α → Bool) (f : α → α) (l : List α) (i : Nat)
    (hf : ∀ x, p (f x) = p x) : (modifyIdx l i f).countP p = l.countP p := by
  induction l generalizing i with
  | nil => rfl
  | cons x xs ih =>
      cases i with
      | zero => simp [modifyIdx, List.countP_cons, hf]
      | succ n => simp [modifyIdx, List.countP_cons, ih]

theorem sumQtyP_modifyIdx_set (p : Row → Bool) (l : List Row) (i : Nat) (r : Row) (v : Int)
    (hp : ∀ x w, p { x with quantity := w } = p x)
    (h : findIdxRow p l = some (i, r)) :
    sumQtyP p (modifyIdx l i (fun x => { x with quantity := v })) =
      sumQtyP p l - r.quantity + v := by
  induction l generalizing i with
  | nil => simp [findIdxRow] at h
  | cons x xs ih =>
      by_cases hx : p x
      · rw [findIdxRow, if_pos hx] at h
        simp only [Option.some.injEq, Prod.mk.injEq] at h
        obtain ⟨rfl, rfl⟩ := h
        simp [modifyIdx, sumQtyP, List.filter_cons, hx, hp]
        ring
      · rw [findIdxRow, if_neg hx] at h
        cases hfind : findIdxRow p xs with
        | none => rw [hfind] at h; simp at h
        | some jr =>
            obtain ⟨j, r'⟩ := jr
            rw [hfind] at h
            simp only [Option.map_some', Option.some.injEq, Prod.mk.injEq] at h
            obtain ⟨rfl, rfl⟩ := h
            have hrec := ih j hfind
            have hxf : p x = false := by
              cases hc : p x
              · rfl
              · exact absurd hc hx
            simp only [modifyIdx, sumQtyP, List.filter_cons, hxf] at hrec ⊢
            simp only [Bool.false_eq_true, if_false]
            exact hrec

theorem mem_modifyIdx_qty (l : List Row) (i : Nat) (v : Int) (r' : Row)
    (h : r' ∈ modifyIdx l i (fun x => { x with quantity := v })) :
    ∃ r'' ∈ l, r'.name = r''.name ∧ r'.dose = r''.dose ∧ r'.location = r''.location := by
  induction l generalizing i with
  | nil => simp [modifyIdx] at h
  | cons x xs ih =>
      cases i with
      | zero =>
          simp only [modifyIdx, List.mem_cons] at h
          rcases h with rfl | h
          · exact ⟨x, List.mem_cons_self x xs, rfl, rfl, rfl⟩
          · exact ⟨r', List.mem_cons_of_mem x h, rfl, rfl, rfl⟩
      | succ n =>
          simp only [modifyIdx, List.mem_cons] at h
          rcases h with rfl | h
          · exact ⟨r', List.mem_cons_self r' xs, rfl, rfl, rfl⟩
          · obtain ⟨r'', hm, he⟩ := ih n h
            exact ⟨r'', List.mem_cons_of_mem x hm, he⟩

theorem insertRow_perm (r : Row) (l : List Row) : (insertRow r l).Perm (r :: l) := by
  induction l with
  | nil => exact List.Perm.refl _
  | cons x xs ih =>
      by_cases h : rowLe r x
      · simp [insertRow, h]
      · simp only [insertRow, h, if_false]
        exact ((ih.cons x).trans (List.Perm.swap r x xs))

theorem sortRows_perm (l : List Row) : (sortRows l).Perm l := by
  induction l with
  | nil => exact List.Perm.refl _
  | cons x xs ih =>
      exact (insertRow_perm x (sortRows xs)).trans (ih.cons x)

theorem sumQtyP_perm (p : Row → Bool) {l l' : List Row} (h : l.Perm l') :
    sumQtyP p l = sumQtyP p l' := ((h.filter p).map Row.quantity).sum_eq

theorem sumQtyP_append (p : Row → Bool) (l m : List Row) :
    sumQtyP p (l ++ m) = sumQtyP p l + sumQtyP p m := by
  simp [sumQtyP, List.filter_append]

theorem rowMatches_congr {n d l n₀ d₀ l₀ : JStr} (h1 : lowerStr n = lowerStr n₀)
    (h2 : normalizeDose d = normalizeDose d₀) (h3 : lowerStr l = lowerStr l₀) :
    rowMatches n d l = rowMatches n₀ d₀ l₀ := by
  funext r
  unfold rowMatches
  rw [h1, h2, h3]

theorem rowMatches_qty (n d l : JStr) (r : Row) (v : Int) :
    rowMatches n d l { r with quantity := v } = rowMatches n d l r := rfl

theorem addMedication_merge_file {n d l : JStr} {q : Int} {st : LedgerState} {i : Nat} {r : Row}
    (hna : isAngieMode n = false)
    (h : findIdxRow (rowMatches n d l) st.fileMeds = some (i, r)) :
    addMedication n d l q st =
      { st with
        fileMeds := modifyIdx st.fileMeds i (fun x => { x with quantity := r.quantity + q })
        activity := ⟨jstr "ADD", n, d, l, q⟩ :: st.activity } := by
  unfold addMedication
  rw [if_neg (by rw [hna]; decide), h]

theorem addMedication_merge_closet {n d l : JStr} {q : Int} {st : LedgerState} {i : Nat} {r : Row}
    (hna : isAngieMode n = false)
    (hfile : findIdxRow (rowMatches n d l) st.fileMeds = none)
    (h : findIdxRow (rowMatches n d l) st.closetMeds = some (i, r)) :
    addMedication n d l q st =
      { st with
        closetMeds := modifyIdx st.closetMeds i (fun x => { x with quantity := r.quantity + q })
        activity := ⟨jstr "ADD", n, d, l, q⟩ :: st.activity } := by
  unfold addMedication
  rw [if_neg (by rw [hna]; decide), hfile, h]

theorem addMedication_append {n d l : JStr} {q : Int} {st : LedgerState}
    (hna : isAngieMode n = false)
    (hfile : findIdxRow (rowMatches n d l) st.fileMeds = none)
    (hcloset : findIdxRow (rowMatches n d l) st.closetMeds = none) :
    addMedication n d l q st =
      (if containsCloset l then
        { st with
          pastMeds := removeFromPastMedication n d l st.pastMeds
          closetMeds := sortRows (st.closetMeds ++ [⟨n, d, l, q⟩])
          activity := ⟨jstr "ADD", n, d, l, q⟩ :: st.activity }
      else
        { st with
          pastMeds := removeFromPastMedication n d l st.pastMeds
          fileMeds := sortRows (st.fileMeds ++ [⟨n, d, l, q⟩])
          activity := ⟨jstr "ADD", n, d, l, q⟩ :: st.activity }) := by
  unfold addMedication
  rw [if_neg (by rw [hna]; decide), hfile, hcloset]

theorem processQuickItem_normal_file {st : LedgerState} {i : Nat} {r : Row} {q : Int}
    (hne : r.name ≠ []) (hq : 0 < q) (hna : isAngieMode r.name = false) :
    processQuickItem ⟨jstr "File Meds", i + 2, r.name, r.dose, r.location,
        r.quantity, q, r.location⟩ st =
      { st with
        fileMeds := modifyIdx st.fileMeds i (fun x => { x with quantity := r.quantity + q })
        activity := ⟨jstr "ADD", r.name, r.dose, r.location, q⟩ :: st.activity } := by
  unfold processQuickItem
  dsimp only [QuickItem.name, QuickItem.addQty, QuickItem.sheetName, QuickItem.rowIndex,
    QuickItem.dose, QuickItem.location, QuickItem.quantity, QuickItem.originalLocation]
  rw [if_neg (by simp [hne]), if_neg (by omega), if_neg (by rw [hna]; decide),
    if_neg (by decide)]
  unfold updateQuantityInSheet
  rw [if_neg (by decide), if_pos (by decide), Nat.add_sub_cancel]

theorem processQuickItem_normal_closet {st : LedgerState} {i : Nat} {r : Row} {q : Int}
    (hne : r.name ≠ []) (hq : 0 < q) (hna : isAngieMode r.name = false) :
    processQuickItem ⟨jstr "Closet Meds", i + 2, r.name, r.dose, r.location,
        r.quantity, q, r.location⟩ st =
      { st with
        closetMeds := modifyIdx st.closetMeds i (fun x => { x with quantity := r.quantity + q })
        activity := ⟨jstr "ADD", r.name, r.dose, r.location, q⟩ :: st.activity } := by
  unfold processQuickItem
  dsimp only [QuickItem.name, QuickItem.addQty, QuickItem.sheetName, QuickItem.rowIndex,
    QuickItem.dose, QuickItem.location, QuickItem.quantity, QuickItem.originalLocation]
  rw [if_neg (by simp [hne]), if_neg (by omega), if_neg (by rw [hna]; decide),
    if_neg (by decide)]
  unfold updateQuantityInSheet
  rw [if_neg (by decide), if_neg (by decide), if_pos (by decide), Nat.add_sub_cancel]

theorem rowMatches_fields_congr {n₀ d₀ l₀ : JStr} {r r' : Row} (h1 : r.name = r'.name)
    (h2 : r.dose = r'.dose) (h3 : r.location = r'.location) :
    rowMatches n₀ d₀ l₀ r = rowMatches n₀ d₀ l₀ r' := by
  unfold rowMatches
  rw [h1, h2, h3]

theorem bump_lists (n₀ d₀ l₀ : JStr) (file closet : List Row) (total q : Int) (i : Nat) (r : Row)
    (hc : (file ++ closet).countP (rowMatches n₀ d₀ l₀) = 1)
    (hs : sumQtyP (rowMatches n₀ d₀ l₀) (file ++ closet) = total)
    (hw : ∀ r' ∈ file ++ closet, rowMatches n₀ d₀ l₀ r' = true →
      isAngieMode r'.name = false ∧ r'.name ≠ [])
    (hfind : findIdxRow (rowMatches n₀ d₀ l₀) file = some (i, r)) :
    let file' := modifyIdx file i (fun x => { x with quantity := r.quantity + q })
    (file' ++ closet).countP (rowMatches n₀ d₀ l₀) = 1 ∧
    sumQtyP (rowMatches n₀ d₀ l₀) (file' ++ closet) = total + q ∧
    ∀ r' ∈ file' ++ closet, rowMatches n₀ d₀ l₀ r' = true →
      isAngieMode r'.name = false ∧ r'.name ≠ [] := by
  intro file'
  have hcnt : file'.countP (rowMatches n₀ d₀ l₀) = file.countP (rowMatches n₀ d₀ l₀) :=
    countP_modifyIdx _ _ _ _ (fun x => rowMatches_qty n₀ d₀ l₀ x (r.quantity + q))
  have hsum : sumQtyP (rowMatches n₀ d₀ l₀) file' =
      sumQtyP (rowMatches n₀ d₀ l₀) file + q := by
    have := sumQtyP_modifyIdx_set (rowMatches n₀ d₀ l₀) file i r (r.quantity + q)
      (fun x w => rowMatches_qty n₀ d₀ l₀ x w) hfind
    rw [this]; ring
  refine ⟨?_, ?_, ?_⟩
  · rw [List.countP_append] at hc ⊢
    rw [hcnt]; exact hc
  · rw [sumQtyP_append] at hs ⊢
    rw [hsum]; omega
  · intro r' hr' hp
    rcases List.mem_append.mp hr' with hrf | hrc
    · obtain ⟨r'', hm, e1, e2, e3⟩ := mem_modifyIdx_qty file i (r.quantity + q) r' hrf
      have hp'' : rowMatches n₀ d₀ l₀ r'' = true := by
        rw [← rowMatches_fields_congr e1 e2 e3]; exact hp
      obtain ⟨ha, hb⟩ := hw r'' (List.mem_append.mpr (Or.inl hm)) hp''
      rw [e1] at *
      exact ⟨ha, hb⟩
    · exact hw r' (List.mem_append.mpr (Or.inr hrc)) hp

theorem bump_lists_right (n₀ d₀ l₀ : JStr) (file closet : List Row) (total q : Int) (i : Nat)
    (r : Row)
    (hc : (file ++ closet).countP (rowMatches n₀ d₀ l₀) = 1)
    (hs : sumQtyP (rowMatches n₀ d₀ l₀) (file ++ closet) = total)
    (hw : ∀ r' ∈ file ++ closet, rowMatches n₀ d₀ l₀ r' = true →
      isAngieMode r'.name = false ∧ r'.name ≠ [])
    (hfind : findIdxRow (rowMatches n₀ d₀ l₀) closet = some (i, r)) :
    let closet' := modifyIdx closet i (fun x => { x with quantity := r.quantity + q })
    (file ++ closet').countP (rowMatches n₀ d₀ l₀) = 1 ∧
    sumQtyP (rowMatches n₀ d₀ l₀) (file ++ closet') = total + q ∧
    ∀ r' ∈ file ++ closet', rowMatches n₀ d₀ l₀ r' = true →
      isAngieMode r'.name = false ∧ r'.name ≠ [] := by
  intro closet'
  have hcnt : closet'.countP (rowMatches n₀ d₀ l₀) = closet.countP (rowMatches n₀ d₀ l₀) :=
    countP_modifyIdx _ _ _ _ (fun x => rowMatches_qty n₀ d₀ l₀ x (r.quantity + q))
  have hsum : sumQtyP (rowMatches n₀ d₀ l₀) closet' =
      sumQtyP (rowMatches n₀ d₀ l₀) closet + q := by
    have := sumQtyP_modifyIdx_set (rowMatches n₀ d₀ l₀) closet i r (r.quantity + q)
      (fun x w => rowMatches_qty n₀ d₀ l₀ x w) hfind
    rw [this]; ring
  refine ⟨?_, ?_, ?_⟩
  · rw [List.countP_append] at hc ⊢
    rw [hcnt]; exact hc
  · rw [sumQtyP_append] at hs ⊢
    rw [hsum]; omega
  · intro r' hr' hp
    rcases List.mem_append.mp hr' with hrf | hrc
    · exact hw r' (List.mem_append.mpr (Or.inl hrf)) hp
    · obtain ⟨r'', hm, e1, e2, e3⟩ := mem_modifyIdx_qty closet i (r.quantity + q) r' hrc
      have hp'' : rowMatches n₀ d₀ l₀ r'' = true := by
        rw [← rowMatches_fields_congr e1 e2 e3]; exact hp
      obtain ⟨ha, hb⟩ := hw r'' (List.mem_append.mpr (Or.inr hm)) hp''
      rw [e1] at *
      exact ⟨ha, hb⟩

theorem restockByRef_file {n d l : JStr} {q : Int} {st : LedgerState} {i : Nat} {r : Row}
    (h : findIdxRow (rowMatches n d l) st.fileMeds = some (i, r)) :
    restockByRef n d l q st =
      processQuickItem ⟨jstr "File Meds", i + 2, r.name, r.dose, r.location,
        r.quantity, q, r.location⟩ st := by
  unfold restockByRef
  rw [h]

theorem restockByRef_closet {n d l : JStr} {q : Int} {st : LedgerState} {i : Nat} {r : Row}
    (hfile : findIdxRow (rowMatches n d l) st.fileMeds = none)
    (h : findIdxRow (rowMatches n d l) st.closetMeds = some (i, r)) :
    restockByRef n d l q st =
      processQuickItem ⟨jstr "Closet Meds", i + 2, r.name, r.dose, r.location,
        r.quantity, q, r.location⟩ st := by
  unfold restockByRef
  rw [hfile, h]

theorem activeInv_base {n₀ d₀ l₀ n d l : JStr} {q : Int} {st : LedgerState}
    (h0 : (st.fileMeds ++ st.closetMeds).countP (rowMatches n₀ d₀ l₀) = 0)
    (ht : targetsTriple n₀ d₀ l₀ (.merge n d l q))
    (hna : isAngieMode n = false) (hne : n ≠ []) :
    ActiveInv n₀ d₀ l₀ (addMedication n d l q st) q := by
  obtain ⟨ht1, ht2, ht3⟩ := ht
  simp only [opName, opDose, opLoc] at ht1 ht2 ht3
  have hcongr : rowMatches n d l = rowMatches n₀ d₀ l₀ := rowMatches_congr ht1 ht2 ht3
  rw [List.countP_append] at h0
  have hf0 : st.fileMeds.countP (rowMatches n₀ d₀ l₀) = 0 := by omega
  have hc0 : st.closetMeds.countP (rowMatches n₀ d₀ l₀) = 0 := by omega
  have hfile : findIdxRow (rowMatches n d l) st.fileMeds = none := by
    rw [hcongr]; exact (findIdxRow_none _ _).mpr hf0
  have hcloset : findIdxRow (rowMatches n d l) st.closetMeds = none := by
    rw [hcongr]; exact (findIdxRow_none _ _).mpr hc0
  have hnew : rowMatches n₀ d₀ l₀ ⟨n, d, l, q⟩ = true := by
    unfold rowMatches
    show (lowerStr n == lowerStr n₀ && (normalizeDose d == normalizeDose d₀) &&
      (lowerStr l == lowerStr l₀)) = true
    rw [ht1, ht2, ht3]
    simp
  have hnomatch : ∀ r' ∈ st.fileMeds ++ st.closetMeds, ¬ rowMatches n₀ d₀ l₀ r' = true := by
    intro r' hr'
    rcases List.mem_append.mp hr' with hrf | hrc
    · exact List.countP_eq_zero.mp hf0 r' hrf
    · exact List.countP_eq_zero.mp hc0 r' hrc
  rw [addMedication_append hna hfile hcloset]
  by_cases hcl : containsCloset l
  · rw [if_pos hcl]
    have hperm : (sortRows (st.closetMeds ++ [⟨n, d, l, q⟩])).Perm
        (st.closetMeds ++ [⟨n, d, l, q⟩]) := sortRows_perm _
    refine ⟨?_, ?_, ?_⟩
    · show (st.fileMeds ++ sortRows (st.closetMeds ++ [⟨n, d, l, q⟩])).countP _ = 1
      rw [List.countP_append, hperm.countP_eq, List.countP_append, hf0, hc0]
      simp [List.countP_cons, hnew]
    · show sumQtyP _ (st.fileMeds ++ sortRows (st.closetMeds ++ [⟨n, d, l, q⟩])) = q
      rw [sumQtyP_append, sumQtyP_perm _ hperm, sumQtyP_append]
      have hsf : sumQtyP (rowMatches n₀ d₀ l₀) st.fileMeds = 0 := by
        unfold sumQtyP
        rw [List.filter_eq_nil_iff.mpr (fun r' hr' =>
          List.countP_eq_zero.mp hf0 r' hr')]
        rfl
      have hsc : sumQtyP (rowMatches n₀ d₀ l₀) st.closetMeds = 0 := by
        unfold sumQtyP
        rw [List.filter_eq_nil_iff.mpr (fun r' hr' =>
          List.countP_eq_zero.mp hc0 r' hr')]
        rfl
      rw [hsf, hsc]
      simp [sumQtyP, List.filter_cons, hnew]
    · intro r' hr' hp
      rcases List.mem_append.mp hr' with hrf | hrc
      · exact absurd hp (hnomatch r' (List.mem_append.mpr (Or.inl hrf)))
      · rcases List.mem_append.mp (hperm.mem_iff.mp hrc) with hrc' | hrn
        · exact absurd hp (hnomatch r' (List.mem_append.mpr (Or.inr hrc')))
        · have : r' = ⟨n, d, l, q⟩ := by simpa using hrn
          rw [this]
          exact ⟨hna, hne⟩
  · rw [if_neg hcl]
    have hperm : (sortRows (st.fileMeds ++ [⟨n, d, l, q⟩])).Perm
        (st.fileMeds ++ [⟨n, d, l, q⟩]) := sortRows_perm _
    refine ⟨?_, ?_, ?_⟩
    · show (sortRows (st.fileMeds ++ [⟨n, d, l, q⟩]) ++ st.closetMeds).countP _ = 1
      rw [List.countP_append, hperm.countP_eq, List.countP_append, hf0, hc0]
      simp [List.countP_cons, hnew]
    · show sumQtyP _ (sortRows (st.fileMeds ++ [⟨n, d, l, q⟩]) ++ st.closetMeds) = q
      rw [sumQtyP_append, sumQtyP_perm _ hperm, sumQtyP_append]
      have hsf : sumQtyP (rowMatches n₀ d₀ l₀) st.fileMeds = 0 := by
        unfold sumQtyP
        rw [List.filter_eq_nil_iff.mpr (fun r' hr' =>
          List.countP_eq_zero.mp hf0 r' hr')]
        rfl
      have hsc : sumQtyP (rowMatches n₀ d₀ l₀) st.closetMeds = 0 := by
        unfold sumQtyP
        rw [List.filter_eq_nil_iff.mpr (fun r' hr' =>
          List.countP_eq_zero.mp hc0 r' hr')]
        rfl
      rw [hsf, hsc]
      simp [sumQtyP, List.filter_cons, hnew]
    · intro r' hr' hp
      rcases List.mem_append.mp hr' with hrf | hrc
      · rcases List.mem_append.mp (hperm.mem_iff.mp hrf) with hrf' | hrn
        · exact absurd hp (hnomatch r' (List.mem_append.mpr (Or.inl hrf')))
        · have : r' = ⟨n, d, l, q⟩ := by simpa using hrn
          rw [this]
          exact ⟨hna, hne⟩
      · exact absurd hp (hnomatch r' (List.mem_append.mpr (Or.inr hrc)))

theorem activeInv_step {n₀ d₀ l₀ : JStr} {st : LedgerState} {total : Int} {op : StockOp}
    (hinv : ActiveInv n₀ d₀ l₀ st total)
    (ht : targetsTriple n₀ d₀ l₀ op) (hq : 0 < opQty op)
    (hna : isAngieMode (opName op) = false) (hne : opName op ≠ []) :
    ActiveInv n₀ d₀ l₀ (applyOp st op) (total + opQty op) := by
  obtain ⟨hc, hs, hw⟩ := hinv
  cases op with
  | merge n d l q =>
      obtain ⟨ht1, ht2, ht3⟩ := ht
      simp only [opName, opDose, opLoc] at ht1 ht2 ht3 hna hne
      simp only [opQty]
      have hcongr : rowMatches n d l = rowMatches n₀ d₀ l₀ := rowMatches_congr ht1 ht2 ht3
      show ActiveInv n₀ d₀ l₀ (addMedication n d l q st) (total + q)
      cases hfile : findIdxRow (rowMatches n₀ d₀ l₀) st.fileMeds with
      | some ir =>
          obtain ⟨i, r⟩ := ir
          rw [addMedication_merge_file hna (by rw [hcongr]; exact hfile)]
          exact bump_lists n₀ d₀ l₀ st.fileMeds st.closetMeds total q i r hc hs hw hfile
      | none =>
          cases hcloset : findIdxRow (rowMatches n₀ d₀ l₀) st.closetMeds with
          | some ir =>
              obtain ⟨i, r⟩ := ir
              rw [addMedication_merge_closet hna (by rw [hcongr]; exact hfile)
                (by rw [hcongr]; exact hcloset)]
              exact bump_lists_right n₀ d₀ l₀ st.fileMeds st.closetMeds total q i r hc hs hw
                hcloset
          | none =>
              exfalso
              have h1 := (findIdxRow_none _ _).mp hfile
              have h2 := (findIdxRow_none _ _).mp hcloset
              rw [List.countP_append, h1, h2] at hc
              exact absurd hc (by decide)
  | restock n d l q =>
      obtain ⟨ht1, ht2, ht3⟩ := ht
      simp only [opName, opDose, opLoc] at ht1 ht2 ht3 hna hne
      simp only [opQty]
      have hcongr : rowMatches n d l = rowMatches n₀ d₀ l₀ := rowMatches_congr ht1 ht2 ht3
      show ActiveInv n₀ d₀ l₀ (restockByRef n d l q st) (total + q)
      simp only [opQty] at hq
      cases hfile : findIdxRow (rowMatches n₀ d₀ l₀) st.fileMeds with
      | some ir =>
          obtain ⟨i, r⟩ := ir
          have hmem := findIdxRow_some_mem _ _ _ _ hfile
          obtain ⟨hrna, hrne⟩ := hw r (List.mem_append.mpr (Or.inl hmem.2)) hmem.1
          rw [restockByRef_file (by rw [hcongr]; exact hfile),
            processQuickItem_normal_file hrne hq hrna]
          exact bump_lists n₀ d₀ l₀ st.fileMeds st.closetMeds total q i r hc hs hw hfile
      | none =>
          cases hcloset : findIdxRow (rowMatches n₀ d₀ l₀) st.closetMeds with
          | some ir =>
              obtain ⟨i, r⟩ := ir
              have hmem := findIdxRow_some_mem _ _ _ _ hcloset
              obtain ⟨hrna, hrne⟩ := hw r (List.mem_append.mpr (Or.inr hmem.2)) hmem.1
              rw [restockByRef_closet (by rw [hcongr]; exact hfile)
                  (by rw [hcongr]; exact hcloset),
                processQuickItem_normal_closet hrne hq hrna]
              exact bump_lists_right n₀ d₀ l₀ st.fileMeds st.closetMeds total q i r hc hs hw
                hcloset
          | none =>
              exfalso
              have h1 := (findIdxRow_none _ _).mp hfile
              have h2 := (findIdxRow_none _ _).mp hcloset
              rw [List.countP_append, h1, h2] at hc
              exact absurd hc (by decide)

theorem activeInv_ops {n₀ d₀ l₀ : JStr} (ops : List StockOp) :
    ∀ (st : LedgerState) (total : Int), ActiveInv n₀ d₀ l₀ st total →
    (∀ op ∈ ops, targetsTriple n₀ d₀ l₀ op ∧ 0 < opQty op ∧
      isAngieMode (opName op) = false ∧ opName op ≠ []) →
    ActiveInv n₀ d₀ l₀ (applyOps ops st) (total + (ops.map opQty).sum) := by
  induction ops with
  | nil =>
      intro st total hinv _
      simpa [applyOps] using hinv
  | cons op rest ih =>
      intro st total hinv hops
      obtain ⟨hto, hqo, hao, hno⟩ := hops op (List.mem_cons_self op rest)
      have hrest := fun o ho => hops o (List.mem_cons_of_mem op ho)
      have hstep := activeInv_step hinv hto hqo hao hno
      have := ih (applyOp st op) (total + opQty op) hstep hrest
      show ActiveInv n₀ d₀ l₀ (applyOps rest (applyOp st op)) _
      rw [List.map_cons, List.sum_cons, ← add_assoc]
      exact this

/-- Claim C1 (counterexample): two New-Item-Merge calls whose targets have
the same spec-normalized `(name, dose, location)` triple — the names differ
only by a leading space — leave two rows for that triple in the active
tables instead of one row with the summed quantity: the source compares
names only case-insensitively (`toLowerCase`), with no trimming or
whitespace collapsing, so the second call misses the first call's row and
appends a duplicate. -/
theorem merge_uniqueness_whitespace_counterexample :
    specNormalize (jstr " Aspirin") = specNormalize (jstr "Aspirin") ∧
    (activeRows (applyOps [StockOp.merge (jstr "Aspirin") (jstr "5mg") (jstr "Cabinet") 2,
        StockOp.merge (jstr " Aspirin") (jstr "5mg") (jstr "Cabinet") 3] emptyLedger)).countP
      (specTripleMatches (jstr "Aspirin") (jstr "5mg") (jstr "Cabinet")) = 2 := by
  constructor
  · decide
  · decide

/-- Claim C1 (amended): for every sequence of New-Item-Merge and fast-path
Restock operations whose targets agree on the `(name, dose, location)`
triple under the comparisons the code performs (case-insensitive name and
location, case- and whitespace-insensitive dose), whose quantities are
positive, whose names are non-empty and not alias-marked, and which begins
with a New-Item-Merge (a fast-path Restock presupposes an existing row),
starting from a state with no active row for that triple: the active-stock
tables end with exactly one row for the triple, and its quantity equals the
sum of all quantities added across the sequence. -/
theorem merge_restock_uniqueness (n₀ d₀ l₀ n d l : JStr) (q : Int) (rest : List StockOp)
    (st : LedgerState)
    (h0 : (activeRows st).countP (rowMatches n₀ d₀ l₀) = 0)
    (ht : targetsTriple n₀ d₀ l₀ (.merge n d l q)) (hq : 0 < q)
    (hna : isAngieMode n = false) (hne : n ≠ [])
    (hrest : ∀ op ∈ rest, targetsTriple n₀ d₀ l₀ op ∧ 0 < opQty op ∧
      isAngieMode (opName op) = false ∧ opName op ≠ []) :
    (activeRows (applyOps (StockOp.merge n d l q :: rest) st)).countP
      (rowMatches n₀ d₀ l₀) = 1 ∧
    sumQtyP (rowMatches n₀ d₀ l₀) (activeRows (applyOps (StockOp.merge n d l q :: rest) st)) =
      ((StockOp.merge n d l q :: rest).map opQty).sum := by
  have hbase := activeInv_base h0 ht hna hne
  have hrec := activeInv_ops rest (addMedication n d l q st) q hbase hrest
  have heq : applyOps (StockOp.merge n d l q :: rest) st =
      applyOps rest (addMedication n d l q st) := rfl
  rw [heq, List.map_cons, List.sum_cons]
  obtain ⟨h1, h2, _⟩ := hrec
  refine ⟨h1, ?_⟩
  show sumQtyP _ (_ ++ _) = _
  rw [h2]
  simp [opQty]

/-- Witness for `merge_restock_uniqueness`: a concrete merge followed by a
fast-path restock under case and dose-whitespace variation ends with one row
of quantity 5. -/
theorem merge_restock_uniqueness_witness :
    (activeRows emptyLedger).countP
      (rowMatches (jstr "aspirin") (jstr "5mg") (jstr "cabinet 1")) = 0 ∧
    ((activeRows (applyOps (StockOp.merge (jstr "Aspirin") (jstr "5 mg") (jstr "Cabinet 1") 2 ::
        [StockOp.restock (jstr "ASPIRIN") (jstr "5MG") (jstr "Cabinet 1") 3])
        emptyLedger)).countP
      (rowMatches (jstr "aspirin") (jstr "5mg") (jstr "cabinet 1")) = 1 ∧
    sumQtyP (rowMatches (jstr "aspirin") (jstr "5mg") (jstr "cabinet 1"))
      (activeRows (applyOps (StockOp.merge (jstr "Aspirin") (jstr "5 mg") (jstr "Cabinet 1") 2 ::
        [StockOp.restock (jstr "ASPIRIN") (jstr "5MG") (jstr "Cabinet 1") 3])
        emptyLedger)) =
      ((StockOp.merge (jstr "Aspirin") (jstr "5 mg") (jstr "Cabinet 1") 2 ::
        [StockOp.restock (jstr "ASPIRIN") (jstr "5MG") (jstr "Cabinet 1") 3]).map opQty).sum) :=
  ⟨by decide,
    merge_restock_uniqueness (jstr "aspirin") (jstr "5mg") (jstr "cabinet 1")
      (jstr "Aspirin") (jstr "5 mg") (jstr "Cabinet 1") 2
      [StockOp.restock (jstr "ASPIRIN") (jstr "5MG") (jstr "Cabinet 1") 3]
      emptyLedger (by decide)
      ⟨by decide, by decide, by decide⟩ (by decide) (by decide) (by decide)
      (by
        intro op hop
        fin_cases hop
        exact ⟨⟨by decide, by decide, by decide⟩, by decide, by decide, by decide⟩)⟩

theorem knownSheet_ne_nil (s : JStr) (h : knownSheet s = true) : (s == []) = false := by
  simp only [knownSheet, Bool.or_eq_true, beq_iff_eq] at h
  rcases h with (rfl | rfl) | rfl <;> decide

theorem processUpdateItem_zero_case (fl : FailSpec) (item : UpdateItem) (st : LedgerState)
    (q : Int) (hqty : item.qty = some q) (hq0 : q ≠ 0)
    (hsheet : (item.sheetName == []) = false) (hrow : item.rowIndex ≠ 0)
    (hmax : max 0 (item.quantity - q) = 0) :
    processUpdateItem fl item st =
      (if fl.sheetIdLookupFails || !knownSheet item.sheetName then
        (consumeArchived fl item st,
         [Ev.logRemove item.name item.dose item.location q,
          Ev.archiveAppend item.name item.dose item.location])
       else if fl.deleteFails then
        (consumeArchived fl item st,
         [Ev.logRemove item.name item.dose item.location q,
          Ev.archiveAppend item.name item.dose item.location,
          Ev.rowDelete item.sheetName item.rowIndex])
       else
        (deleteRowInSheet (consumeArchived fl item st) item.sheetName item.rowIndex,
         [Ev.logRemove item.name item.dose item.location q,
          Ev.archiveAppend item.name item.dose item.location,
          Ev.rowDelete item.sheetName item.rowIndex])) := by
  have e1 : (item.rowIndex == 0) = false := by simpa using hrow
  have e2 : item.qty.isNone = false := by rw [hqty]; rfl
  have e3 : item.qty.getD 0 = q := by rw [hqty]; rfl
  have e4 : (q == 0) = false := by simpa using hq0
  unfold processUpdateItem
  rw [hsheet, if_neg (by decide), e1, if_neg (by decide), e2, if_neg (by decide), e3, e4,
    if_neg (by decide), if_pos (by omega)]

theorem processUpdateItem_pos_case (fl : FailSpec) (item : UpdateItem) (st : LedgerState)
    (q : Int) (hqty : item.qty = some q) (hq0 : q ≠ 0)
    (hsheet : (item.sheetName == []) = false) (hrow : item.rowIndex ≠ 0)
    (hmax : 0 < max 0 (item.quantity - q)) :
    processUpdateItem fl item st =
      (if fl.updateFails then
        (consumeLogged item st,
         [Ev.logRemove item.name item.dose item.location q,
          Ev.cellUpdate item.sheetName item.rowIndex (max 0 (item.quantity - q))])
       else
        (updateQuantityInSheet (consumeLogged item st) item.sheetName item.rowIndex
           (max 0 (item.quantity - q)),
         [Ev.logRemove item.name item.dose item.location q,
          Ev.cellUpdate item.sheetName item.rowIndex (max 0 (item.quantity - q))])) := by
  have e1 : (item.rowIndex == 0) = false := by simpa using hrow
  have e2 : item.qty.isNone = false := by rw [hqty]; rfl
  have e3 : item.qty.getD 0 = q := by rw [hqty]; rfl
  have e4 : (q == 0) = false := by simpa using hq0
  unfold processUpdateItem
  rw [hsheet, if_neg (by decide), e1, if_neg (by decide), e2, if_neg (by decide), e3, e4,
    if_neg (by decide), if_neg (by omega)]

theorem consumeLogged_eq (item : UpdateItem) (st : LedgerState) (q : Int)
    (hqty : item.qty = some q) :
    consumeLogged item st =
      { st with
        activity := ⟨jstr "REMOVE", item.name, item.dose, item.location, q⟩ :: st.activity } := by
  unfold consumeLogged
  rw [hqty]
  rfl

theorem consumeArchived_noFail (item : UpdateItem) (st : LedgerState) (q : Int)
    (hqty : item.qty = some q) :
    consumeArchived noFail item st =
      { st with
        activity := ⟨jstr "REMOVE", item.name, item.dose, item.location, q⟩ :: st.activity
        pastMeds := st.pastMeds ++ [⟨item.name, item.dose, item.location⟩] } := by
  unfold consumeArchived
  rw [if_neg (by decide), consumeLogged_eq item st q hqty]

theorem consumeArchived_activity (fl : FailSpec) (item : UpdateItem) (st : LedgerState)
    (q : Int) (hqty : item.qty = some q) :
    (consumeArchived fl item st).activity =
      ⟨jstr "REMOVE", item.name, item.dose, item.location, q⟩ :: st.activity := by
  unfold consumeArchived
  cases h : fl.archiveAppendFails <;>
    simp [h, consumeLogged_eq item st q hqty]

theorem deleteRowInSheet_activity (st : LedgerState) (s : JStr) (i : Nat) :
    (deleteRowInSheet st s i).activity = st.activity := by
  unfold deleteRowInSheet
  split_ifs <;> rfl

theorem deleteRowInSheet_pastMeds (st : LedgerState) (s : JStr) (i : Nat) :
    (deleteRowInSheet st s i).pastMeds = st.pastMeds := by
  unfold deleteRowInSheet
  split_ifs <;> rfl

theorem updateQuantityInSheet_activity (st : LedgerState) (s : JStr) (i : Nat) (v : Int) :
    (updateQuantityInSheet st s i v).activity = st.activity := by
  unfold updateQuantityInSheet
  split_ifs <;> rfl

/-- Claim C2: for every consume tuple with positive requested quantity (no
adapter failure, a resolvable sheet, a present row position): the stored
result uses `newQuantity = max 0 (currentQuantityAsKnownByCaller −
requested)`; when that is 0, exactly one ArchivedItem capturing the tuple's
`(name, dose, location)` is appended to the archive and the row at the
tuple's sheet position is deleted from its table, the archive insert issued
before the delete; otherwise the quantity cell is updated to `newQuantity`. -/
theorem consume_quantity_and_archive (item : UpdateItem) (st : LedgerState) (q : Int)
    (hqty : item.qty = some q) (hq : 0 < q)
    (hknown : knownSheet item.sheetName = true) (hrow : item.rowIndex ≠ 0) :
    (max 0 (item.quantity - q) = 0 →
      processUpdateItem noFail item st =
        (deleteRowInSheet
           { st with
             activity := ⟨jstr "REMOVE", item.name, item.dose, item.location, q⟩ :: st.activity
             pastMeds := st.pastMeds ++ [⟨item.name, item.dose, item.location⟩] }
           item.sheetName item.rowIndex,
         [Ev.logRemove item.name item.dose item.location q,
          Ev.archiveAppend item.name item.dose item.location,
          Ev.rowDelete item.sheetName item.rowIndex])) ∧
    (max 0 (item.quantity - q) ≠ 0 →
      processUpdateItem noFail item st =
        (updateQuantityInSheet
           { st with
             activity := ⟨jstr "REMOVE", item.name, item.dose, item.location, q⟩ :: st.activity }
           item.sheetName item.rowIndex (max 0 (item.quantity - q)),
         [Ev.logRemove item.name item.dose item.location q,
          Ev.cellUpdate item.sheetName item.rowIndex (max 0 (item.quantity - q))])) := by
  have hsheet := knownSheet_ne_nil _ hknown
  constructor
  · intro hmax
    rw [processUpdateItem_zero_case noFail item st q hqty (by omega) hsheet hrow hmax]
    rw [if_neg (by simp [noFail, hknown]), if_neg (by decide),
      consumeArchived_noFail item st q hqty]
  · intro hmax
    rw [processUpdateItem_pos_case noFail item st q hqty (by omega) hsheet hrow (by omega)]
    rw [if_neg (by decide), consumeLogged_eq item st q hqty]

/-- Witness for `consume_quantity_and_archive`: the scenario of spec §8 —
consuming 10 of a 10-unit row deletes it, archives it, and the trace is
audit, archive-insert, delete, in that order. -/
theorem consume_quantity_and_archive_witness :
    (0 : Int) < 10 ∧
    processUpdateItem noFail
        ⟨jstr "File Meds", 2, jstr "Amoxicillin", jstr "500mg", jstr "Cabinet 1", 10, some 10⟩
        ⟨[⟨jstr "Amoxicillin", jstr "500mg", jstr "Cabinet 1", 10⟩], [], [], [], []⟩ =
      (deleteRowInSheet
         { (⟨[⟨jstr "Amoxicillin", jstr "500mg", jstr "Cabinet 1", 10⟩], [], [], [], []⟩ :
              LedgerState) with
           activity := [⟨jstr "REMOVE", jstr "Amoxicillin", jstr "500mg", jstr "Cabinet 1", 10⟩]
           pastMeds := [⟨jstr "Amoxicillin", jstr "500mg", jstr "Cabinet 1"⟩] }
         (jstr "File Meds") 2,
       [Ev.logRemove (jstr "Amoxicillin") (jstr "500mg") (jstr "Cabinet 1") 10,
        Ev.archiveAppend (jstr "Amoxicillin") (jstr "500mg") (jstr "Cabinet 1"),
        Ev.rowDelete (jstr "File Meds") 2]) :=
  ⟨by decide,
    (consume_quantity_and_archive
      ⟨jstr "File Meds", 2, jstr "Amoxicillin", jstr "500mg", jstr "Cabinet 1", 10, some 10⟩
      ⟨[⟨jstr "Amoxicillin", jstr "500mg", jstr "Cabinet 1", 10⟩], [], [], [], []⟩ 10
      rfl (by decide) (by decide) (by decide)).1 (by decide)⟩

/-- Claim C3: for every consume tuple that is not skipped, under EVERY
failure oracle for the store mutations, exactly one REMOVE activity record
is produced, carrying the requested (not resulting) quantity; the audit
write is the first issued call — before any store mutation — and the record
is in the activity log whatever happens to the later mutations. -/
theorem consume_audit_before_mutation (fl : FailSpec) (item : UpdateItem) (st : LedgerState)
    (q : Int) (hqty : item.qty = some q) (hq0 : q ≠ 0)
    (hsheet : item.sheetName ≠ []) (hrow : item.rowIndex ≠ 0) :
    (processUpdateItem fl item st).2.head? =
      some (Ev.logRemove item.name item.dose item.location q) ∧
    (processUpdateItem fl item st).2.countP Ev.isAudit = 1 ∧
    (processUpdateItem fl item st).1.activity =
      ⟨jstr "REMOVE", item.name, item.dose, item.location, q⟩ :: st.activity := by
  have hsheet' : (item.sheetName == []) = false := by simpa using hsheet
  by_cases hmax : max 0 (item.quantity - q) = 0
  · rw [processUpdateItem_zero_case fl item st q hqty hq0 hsheet' hrow hmax]
    refine ⟨?_, ?_, ?_⟩
    · split_ifs <;> rfl
    · split_ifs <;> simp [Ev.isAudit, List.countP_cons, List.countP_nil]
    · split_ifs <;>
        simp [deleteRowInSheet_activity, consumeArchived_activity fl item st q hqty]
  · rw [processUpdateItem_pos_case fl item st q hqty hq0 hsheet' hrow (by omega)]
    refine ⟨?_, ?_, ?_⟩
    · split_ifs <;> rfl
    · split_ifs <;> simp [Ev.isAudit, List.countP_cons, List.countP_nil]
    · split_ifs <;>
        simp [updateQuantityInSheet_activity, consumeLogged_eq item st q hqty]

/-- Witness for `consume_audit_before_mutation`: with the row-delete call
failing, the REMOVE record for the requested quantity 4 is still first and
unique, and it is in the activity log. -/
theorem consume_audit_before_mutation_witness :
    (4 : Int) ≠ 0 ∧
    ((processUpdateItem ⟨false, false, true, false⟩
        ⟨jstr "File Meds", 2, jstr "Ibuprofen", jstr "200mg", jstr "Shelf A", 4, some 4⟩
        ⟨[⟨jstr "Ibuprofen", jstr "200mg", jstr "Shelf A", 4⟩], [], [], [], []⟩).2.head? =
      some (Ev.logRemove (jstr "Ibuprofen") (jstr "200mg") (jstr "Shelf A") 4) ∧
    (processUpdateItem ⟨false, false, true, false⟩
        ⟨jstr "File Meds", 2, jstr "Ibuprofen", jstr "200mg", jstr "Shelf A", 4, some 4⟩
        ⟨[⟨jstr "Ibuprofen", jstr "200mg", jstr "Shelf A", 4⟩], [], [], [], []⟩).2.countP
      Ev.isAudit = 1 ∧
    (processUpdateItem ⟨false, false, true, false⟩
        ⟨jstr "File Meds", 2, jstr "Ibuprofen", jstr "200mg", jstr "Shelf A", 4, some 4⟩
        ⟨[⟨jstr "Ibuprofen", jstr "200mg", jstr "Shelf A", 4⟩], [], [], [], []⟩).1.activity =
      [⟨jstr "REMOVE", jstr "Ibuprofen", jstr "200mg", jstr "Shelf A", 4⟩]) :=
  ⟨by decide,
    consume_audit_before_mutation ⟨false, false, true, false⟩
      ⟨jstr "File Meds", 2, jstr "Ibuprofen", jstr "200mg", jstr "Shelf A", 4, some 4⟩
      ⟨[⟨jstr "Ibuprofen", jstr "200mg", jstr "Shelf A", 4⟩], [], [], [], []⟩ 4
      rfl (by decide) (by decide) (by decide)⟩

/-- Claim C4 (counterexample): a consume tuple with requested quantity −1 is
NOT a no-op.  `const qtyToTake = parseInt(item.qty) || 0; if (!qtyToTake)
continue;` only filters the falsy 0 — a negative integer is truthy, so the
handler writes a REMOVE record with quantity −1 and issues a cell update
that RAISES the stock to `max(0, 5 − (−1)) = 6`. -/
theorem consume_negative_not_skipped :
    processUpdateItem noFail
        ⟨jstr "File Meds", 2, jstr "aspirin", jstr "5mg", jstr "shelf", 5, some (-1)⟩
        ⟨[⟨jstr "aspirin", jstr "5mg", jstr "shelf", 5⟩], [], [], [], []⟩ =
      (⟨[⟨jstr "aspirin", jstr "5mg", jstr "shelf", 6⟩], [], [], [],
          [⟨jstr "REMOVE", jstr "aspirin", jstr "5mg", jstr "shelf", -1⟩]⟩,
       [Ev.logRemove (jstr "aspirin") (jstr "5mg") (jstr "shelf") (-1),
        Ev.cellUpdate (jstr "File Meds") 2 6]) := by decide

/-- Claim C4 (amended): a consume tuple whose quantity field is missing or
parses to 0 is a full no-op — no activity record, no store call — and the
rest of the batch is processed exactly as if the tuple were absent.
(Negative quantities, by contrast, are processed: see the counterexample.) -/
theorem consume_zero_skip_noop (fl : FailSpec) (item : UpdateItem) (st : LedgerState)
    (pre post : List UpdateItem) (h : item.qty = some 0 ∨ item.qty = none) :
    processUpdateItem fl item st = (st, []) ∧
    processUpdate fl (pre ++ item :: post) st = processUpdate fl (pre ++ post) st := by
  have hskip : ∀ s : LedgerState, processUpdateItem fl item s = (s, []) := by
    intro s
    unfold processUpdateItem
    rcases h with h | h <;> rw [h] <;> split_ifs <;> first | rfl | simp_all
  have pcons : ∀ (x : UpdateItem) (rest : List UpdateItem) (s : LedgerState),
      processUpdate fl (x :: rest) s =
        ((processUpdate fl rest (processUpdateItem fl x s).1).1,
         (processUpdateItem fl x s).2 ++
           (processUpdate fl rest (processUpdateItem fl x s).1).2) :=
    fun _ _ _ => rfl
  refine ⟨hskip st, ?_⟩
  induction pre generalizing st with
  | nil =>
      show processUpdate fl (item :: post) st = processUpdate fl post st
      rw [pcons, hskip st, List.nil_append]
  | cons x xs ih =>
      show processUpdate fl (x :: (xs ++ item :: post)) st = _
      rw [pcons, ih]
      rfl

/-- Witness for `consume_zero_skip_noop`: a zero-quantity tuple between two
live tuples changes nothing relative to the batch without it. -/
theorem consume_zero_skip_noop_witness :
    ((⟨jstr "File Meds", 3, jstr "b", jstr "1mg", jstr "x", 7, some 0⟩ :
        UpdateItem).qty = some 0 ∨
      (⟨jstr "File Meds", 3, jstr "b", jstr "1mg", jstr "x", 7, some 0⟩ :
        UpdateItem).qty = none) ∧
    (processUpdateItem noFail
        ⟨jstr "File Meds", 3, jstr "b", jstr "1mg", jstr "x", 7, some 0⟩
        ⟨[⟨jstr "a", jstr "1mg", jstr "x", 9⟩, ⟨jstr "b", jstr "1mg", jstr "x", 7⟩],
          [], [], [], []⟩ =
      (⟨[⟨jstr "a", jstr "1mg", jstr "x", 9⟩, ⟨jstr "b", jstr "1mg", jstr "x", 7⟩],
          [], [], [], []⟩, []) ∧
    processUpdate noFail
        [⟨jstr "File Meds", 2, jstr "a", jstr "1mg", jstr "x", 9, some 2⟩,
         ⟨jstr "File Meds", 3, jstr "b", jstr "1mg", jstr "x", 7, some 0⟩,
         ⟨jstr "File Meds", 3, jstr "b", jstr "1mg", jstr "x", 7, some 3⟩]
        ⟨[⟨jstr "a", jstr "1mg", jstr "x", 9⟩, ⟨jstr "b", jstr "1mg", jstr "x", 7⟩],
          [], [], [], []⟩ =
      processUpdate noFail
        [⟨jstr "File Meds", 2, jstr "a", jstr "1mg", jstr "x", 9, some 2⟩,
         ⟨jstr "File Meds", 3, jstr "b", jstr "1mg", jstr "x", 7, some 3⟩]
        ⟨[⟨jstr "a", jstr "1mg", jstr "x", 9⟩, ⟨jstr "b", jstr "1mg", jstr "x", 7⟩],
          [], [], [], []⟩) :=
  ⟨Or.inl rfl,
    consume_zero_skip_noop noFail
      ⟨jstr "File Meds", 3, jstr "b", jstr "1mg", jstr "x", 7, some 0⟩
      ⟨[⟨jstr "a", jstr "1mg", jstr "x", 9⟩, ⟨jstr "b", jstr "1mg", jstr "x", 7⟩],
        [], [], [], []⟩
      [⟨jstr "File Meds", 2, jstr "a", jstr "1mg", jstr "x", 9, some 2⟩]
      [⟨jstr "File Meds", 3, jstr "b", jstr "1mg", jstr "x", 7, some 3⟩]
      (Or.inl rfl)⟩

/-- Claim C9 (counterexample): a consume-to-zero whose ArchivedItem insert
fails does NOT skip the subsequent steps — `addToPastMedication` catches and
swallows its own failure (lines 103–105), so control returns normally and
the active-row deletion is still performed: the row vanishes while the
archive stays empty. -/
theorem consume_archive_fail_still_deletes :
    processUpdateItem ⟨true, false, false, false⟩
        ⟨jstr "File Meds", 2, jstr "aspirin", jstr "5mg", jstr "shelf", 3, some 3⟩
        ⟨[⟨jstr "aspirin", jstr "5mg", jstr "shelf", 3⟩], [], [], [], []⟩ =
      (⟨[], [], [], [], [⟨jstr "REMOVE", jstr "aspirin", jstr "5mg", jstr "shelf", 3⟩]⟩,
       [Ev.logRemove (jstr "aspirin") (jstr "5mg") (jstr "shelf") 3,
        Ev.archiveAppend (jstr "aspirin") (jstr "5mg") (jstr "shelf"),
        Ev.rowDelete (jstr "File Meds") 2]) := by decide

/-- Claim C9 (amended): when the ArchivedItem insertion of a consume-to-zero
fails, the failure is logged and swallowed inside `addToPastMedication`;
the already-applied audit record remains, and the subsequent steps still run
— in particular the active-row deletion IS performed, leaving the archive
unchanged.  Read-path failures still yield the empty fallback result. -/
theorem consume_archive_fail_swallowed (item : UpdateItem) (st : LedgerState) (q : Int)
    (rows : List Row)
    (hqty : item.qty = some q) (hq0 : q ≠ 0) (hknown : knownSheet item.sheetName = true)
    (hrow : item.rowIndex ≠ 0) (hmax : max 0 (item.quantity - q) = 0) :
    processUpdateItem ⟨true, false, false, false⟩ item st =
      (deleteRowInSheet
         { st with
           activity := ⟨jstr "REMOVE", item.name, item.dose, item.location, q⟩ :: st.activity }
         item.sheetName item.rowIndex,
       [Ev.logRemove item.name item.dose item.location q,
        Ev.archiveAppend item.name item.dose item.location,
        Ev.rowDelete item.sheetName item.rowIndex]) ∧
    (deleteRowInSheet
        { st with
          activity := ⟨jstr "REMOVE", item.name, item.dose, item.location, q⟩ :: st.activity }
        item.sheetName item.rowIndex).pastMeds = st.pastMeds ∧
    getSheetDataModel true rows = [] := by
  have hsheet := knownSheet_ne_nil _ hknown
  refine ⟨?_, ?_, rfl⟩
  · rw [processUpdateItem_zero_case ⟨true, false, false, false⟩ item st q hqty hq0 hsheet
      hrow hmax]
    rw [if_neg (by simp [hknown]), if_neg (by decide)]
    have : consumeArchived ⟨true, false, false, false⟩ item st =
        { st with
          activity := ⟨jstr "REMOVE", item.name, item.dose, item.location, q⟩ :: st.activity } := by
      unfold consumeArchived
      rw [if_pos (by decide), consumeLogged_eq item st q hqty]
    rw [this]
  · rw [deleteRowInSheet_pastMeds]

/-- Witness for `consume_archive_fail_swallowed` at a concrete input. -/
theorem consume_archive_fail_swallowed_witness :
    (3 : Int) ≠ 0 ∧
    (processUpdateItem ⟨true, false, false, false⟩
        ⟨jstr "Closet Meds", 2, jstr "b", jstr "2mg", jstr "closet", 3, some 3⟩
        ⟨[], [⟨jstr "b", jstr "2mg", jstr "closet", 3⟩], [], [], []⟩ =
      (deleteRowInSheet
         { (⟨[], [⟨jstr "b", jstr "2mg", jstr "closet", 3⟩], [], [], []⟩ : LedgerState) with
           activity := [⟨jstr "REMOVE", jstr "b", jstr "2mg", jstr "closet", 3⟩] }
         (jstr "Closet Meds") 2,
       [Ev.logRemove (jstr "b") (jstr "2mg") (jstr "closet") 3,
        Ev.archiveAppend (jstr "b") (jstr "2mg") (jstr "closet"),
        Ev.rowDelete (jstr "Closet Meds") 2]) ∧
    (deleteRowInSheet
        { (⟨[], [⟨jstr "b", jstr "2mg", jstr "closet", 3⟩], [], [], []⟩ : LedgerState) with
          activity := [⟨jstr "REMOVE", jstr "b", jstr "2mg", jstr "closet", 3⟩] }
        (jstr "Closet Meds") 2).pastMeds = [] ∧
    getSheetDataModel true [⟨jstr "x", jstr "y", jstr "z", 1⟩] = []) :=
  ⟨by decide,
    consume_archive_fail_swallowed
      ⟨jstr "Closet Meds", 2, jstr "b", jstr "2mg", jstr "closet", 3, some 3⟩
      ⟨[], [⟨jstr "b", jstr "2mg", jstr "closet", 3⟩], [], [], []⟩ 3
      [⟨jstr "x", jstr "y", jstr "z", 1⟩]
      rfl (by decide) (by decide) (by decide) (by decide)⟩

theorem jsTrim_eq_of_lower_angie (l : JStr) (h : lowerStr l = jstr "angie stash") :
    jsTrim l = l := by
  have hwa : ∀ c : Char, lowerChar c = 'a' → c.isWhitespace = false := by
    intro c hc
    have hp := isWhitespace_lowerChar c
    rw [hc] at hp
    exact hp.symm
  have hwh : ∀ c : Char, lowerChar c = 'h' → c.isWhitespace = false := by
    intro c hc
    have hp := isWhitespace_lowerChar c
    rw [hc] at hp
    exact hp.symm
  have hr : lowerStr l.reverse = (jstr "angie stash").reverse := by
    unfold lowerStr at h ⊢
    rw [List.map_reverse, h]
  cases hl : l with
  | nil =>
      rw [hl] at h
      exact absurd h (by decide)
  | cons c t =>
      rw [hl] at h
      rw [show jstr "angie stash" = 'a' :: jstr "ngie stash" from by decide] at h
      simp only [lowerStr, List.map_cons, List.cons.injEq] at h
      have hc : c.isWhitespace = false := hwa c h.1
      cases hrev : l.reverse with
      | nil =>
          rw [hrev] at hr
          exact absurd hr (by decide)
      | cons c' t' =>
          rw [hrev] at hr
          rw [show (jstr "angie stash").reverse = 'h' :: (jstr "angie stash").reverse.tail
              from by decide] at hr
          simp only [lowerStr, List.map_cons, List.cons.injEq] at hr
          have hc' : c'.isWhitespace = false := hwh c' hr.1
          unfold jsTrim
          rw [List.dropWhile_cons, if_neg (by rw [hc]; decide), ← hl, hrev,
            List.dropWhile_cons, if_neg (by rw [hc']; decide), ← hrev,
            List.reverse_reverse]

theorem processQuickItem_past (item : QuickItem) (st : LedgerState)
    (hne : item.name ≠ []) (hq : 0 < item.addQty) (hna : isAngieMode item.name = false)
    (hsheet : item.sheetName = jstr "Past Medication") :
    processQuickItem item st =
      (if lowerStr (jsTrim item.originalLocation) == jstr "angie stash" then
        { st with
          pastMeds := removeFromPastMedication item.name item.dose item.originalLocation
            st.pastMeds
          angieStash := st.angieStash ++ [⟨item.name, item.dose, item.addQty⟩]
          activity := ⟨jstr "ADD", item.name, item.dose, jstr "Angie Stash", item.addQty⟩ ::
            st.activity }
       else if containsCloset item.location then
        { st with
          pastMeds := removeFromPastMedication item.name item.dose item.originalLocation
            st.pastMeds
          closetMeds := sortRows
            (st.closetMeds ++ [⟨item.name, item.dose, item.location, item.addQty⟩])
          activity := ⟨jstr "ADD", item.name, item.dose, item.location, item.addQty⟩ ::
            st.activity }
       else
        { st with
          pastMeds := removeFromPastMedication item.name item.dose item.originalLocation
            st.pastMeds
          fileMeds := sortRows
            (st.fileMeds ++ [⟨item.name, item.dose, item.location, item.addQty⟩])
          activity := ⟨jstr "ADD", item.name, item.dose, item.location, item.addQty⟩ ::
            st.activity }) := by
  unfold processQuickItem
  rw [if_neg (by simp [hne]), if_neg (by omega), if_neg (by rw [hna]; decide), hsheet,
    if_pos (by decide)]

/-- Claim C5: in an Archive-Restore whose matched ArchivedItem has
lastLocation equal to the stash label, the chosen location input is ignored
— whatever location the form offers, the item is appended to the stash table
and the removal key is the original location; and in every Archive-Restore,
the ADD activity record carries the final resolved location: the stash label
in the stash case, the chosen location otherwise. -/
theorem restore_stash_privacy_and_audit (item : QuickItem) (st : LedgerState) (loc' : JStr)
    (hne : item.name ≠ []) (hq : 0 < item.addQty) (hna : isAngieMode item.name = false)
    (hsheet : item.sheetName = jstr "Past Medication") :
    ((∃ a ∈ st.pastMeds, archiveMatches item.name item.dose item.originalLocation a = true ∧
        a.location = jstr "Angie Stash") →
      processQuickItem { item with location := loc' } st =
        { st with
          pastMeds := removeFromPastMedication item.name item.dose item.originalLocation
            st.pastMeds
          angieStash := st.angieStash ++ [⟨item.name, item.dose, item.addQty⟩]
          activity := ⟨jstr "ADD", item.name, item.dose, jstr "Angie Stash", item.addQty⟩ ::
            st.activity }) ∧
    (processQuickItem item st).activity.head? =
      some ⟨jstr "ADD", item.name, item.dose,
        (if lowerStr (jsTrim item.originalLocation) == jstr "angie stash" then
          jstr "Angie Stash"
         else item.location), item.addQty⟩ := by
  constructor
  · rintro ⟨a, hmem, hmatch, hloc⟩
    have hlow : lowerStr item.originalLocation = jstr "angie stash" := by
      unfold archiveMatches at hmatch
      simp only [Bool.and_eq_true, beq_iff_eq] at hmatch
      have h3 := hmatch.2
      rw [hloc] at h3
      rw [← h3]
      decide
    have hbeq : (lowerStr (jsTrim item.originalLocation) == jstr "angie stash") = true := by
      rw [jsTrim_eq_of_lower_angie _ hlow, hlow]
      simp
    rw [processQuickItem_past { item with location := loc' } st hne hq hna hsheet]
    dsimp only [QuickItem.name, QuickItem.dose, QuickItem.location, QuickItem.addQty,
      QuickItem.originalLocation, QuickItem.sheetName, QuickItem.rowIndex, QuickItem.quantity]
    rw [if_pos hbeq]
  · rw [processQuickItem_past item st hne hq hna hsheet]
    by_cases hb : (lowerStr (jsTrim item.originalLocation) == jstr "angie stash") = true
    · rw [if_pos hb, if_pos hb]
      rfl
    · rw [if_neg hb, if_neg hb]
      by_cases hcl : containsCloset item.location = true
      · rw [if_pos hcl]
        rfl
      · rw [if_neg hcl]
        rfl

/-- Witness for `restore_stash_privacy_and_audit`: restoring an archived
stash item while the form offers "Cabinet 1" still lands in the stash, and
the ADD record resolves to the stash label. -/
theorem restore_stash_privacy_and_audit_witness :
    (⟨jstr "Past Medication", 2, jstr "Ibuprofen", jstr "200mg", jstr "Cabinet 1", 0, 4,
        jstr "Angie Stash"⟩ : QuickItem).name ≠ [] ∧
    (((∃ a ∈ [(⟨jstr "Ibuprofen", jstr "200mg", jstr "Angie Stash"⟩ : ARow)],
        archiveMatches (jstr "Ibuprofen") (jstr "200mg") (jstr "Angie Stash") a = true ∧
        a.location = jstr "Angie Stash") →
      processQuickItem
          { (⟨jstr "Past Medication", 2, jstr "Ibuprofen", jstr "200mg", jstr "Cabinet 1", 0, 4,
              jstr "Angie Stash"⟩ : QuickItem) with location := jstr "Cabinet 1" }
          ⟨[], [], [], [⟨jstr "Ibuprofen", jstr "200mg", jstr "Angie Stash"⟩], []⟩ =
        { (⟨[], [], [], [⟨jstr "Ibuprofen", jstr "200mg", jstr "Angie Stash"⟩], []⟩ :
            LedgerState) with
          pastMeds := removeFromPastMedication (jstr "Ibuprofen") (jstr "200mg")
            (jstr "Angie Stash") [⟨jstr "Ibuprofen", jstr "200mg", jstr "Angie Stash"⟩]
          angieStash := [⟨jstr "Ibuprofen", jstr "200mg", 4⟩]
          activity := [⟨jstr "ADD", jstr "Ibuprofen", jstr "200mg", jstr "Angie Stash", 4⟩] }) ∧
    (processQuickItem
        ⟨jstr "Past Medication", 2, jstr "Ibuprofen", jstr "200mg", jstr "Cabinet 1", 0, 4,
          jstr "Angie Stash"⟩
        ⟨[], [], [], [⟨jstr "Ibuprofen", jstr "200mg", jstr "Angie Stash"⟩], []⟩).activity.head? =
      some ⟨jstr "ADD", jstr "Ibuprofen", jstr "200mg",
        (if lowerStr (jsTrim (jstr "Angie Stash")) == jstr "angie stash" then jstr "Angie Stash"
         else jstr "Cabinet 1"), 4⟩) :=
  ⟨by decide,
    restore_stash_privacy_and_audit
      ⟨jstr "Past Medication", 2, jstr "Ibuprofen", jstr "200mg", jstr "Cabinet 1", 0, 4,
        jstr "Angie Stash"⟩
      ⟨[], [], [], [⟨jstr "Ibuprofen", jstr "200mg", jstr "Angie Stash"⟩], []⟩
      (jstr "Cabinet 1") (by decide) (by decide) (by decide) rfl⟩

/-- Claim C6 (code bug): the not-found branch of New-Item-Merge is meant to
remove a previously archived `(name, dose)` entry ignoring its location —
both the spec and the source's own comment, "If adding new med, and it
exists in Past Medication, remove it first (Location might differ)" (line
1166), say so — but the code calls `removeFromPastMedication` with the NEW
location and that function matches all three columns.  Declaring aspirin 5mg
at "Cabinet 1" while the archive holds `(aspirin, 5mg, Shelf A)` appends a
live row AND leaves the stale archive entry in place. -/
theorem restore_archive_location_not_ignored :
    (addMedication (jstr "aspirin") (jstr "5mg") (jstr "Cabinet 1") 3
        ⟨[], [], [], [⟨jstr "aspirin", jstr "5mg", jstr "Shelf A"⟩], []⟩).pastMeds =
      [⟨jstr "aspirin", jstr "5mg", jstr "Shelf A"⟩] ∧
    (addMedication (jstr "aspirin") (jstr "5mg") (jstr "Cabinet 1") 3
        ⟨[], [], [], [⟨jstr "aspirin", jstr "5mg", jstr "Shelf A"⟩], []⟩).fileMeds =
      [⟨jstr "aspirin", jstr "5mg", jstr "Cabinet 1", 3⟩] := by
  constructor <;> decide

/-- Claim C8 (counterexample): the merge-search comparison is NOT
insensitive to whitespace: a submitted name with a trailing space fails to
match a stored row whose name differs only in that space, although the two
names spec-normalize identically — so such presentation differences can
create duplicate rows. -/
theorem matching_whitespace_counterexample :
    specNormalize (jstr "Aspirin ") = specNormalize (jstr "Aspirin") ∧
    rowMatches (jstr "Aspirin ") (jstr "5mg") (jstr "Shelf")
      ⟨jstr "Aspirin", jstr "5mg", jstr "Shelf", 1⟩ = false := by
  constructor <;> decide

/-- Claim C8 (amended): every ledger matching comparison (merge search,
archive removal, stash match) is insensitive to letter case — each predicate
depends only on the lowercased strings, and the merge search's dose
comparison additionally ignores whitespace — but the name and location
comparisons are NOT insensitive to leading/trailing/internal whitespace
(see the counterexample). -/
theorem matching_case_insensitive (n n' d d' l l' : JStr) (r : Row) (a : ARow) (s : SRow)
    (hn : lowerStr n = lowerStr n') (hd : lowerStr d = lowerStr d')
    (hl : lowerStr l = lowerStr l') :
    rowMatches n d l r = rowMatches n' d' l' r ∧
    archiveMatches n d l a = archiveMatches n' d' l' a ∧
    stashEntryMatches n d s = stashEntryMatches n' d' s := by
  refine ⟨?_, ?_, ?_⟩
  · unfold rowMatches
    rw [hn, hl, normalizeDose_congr hd]
  · unfold archiveMatches
    rw [hn, hd, hl]
  · unfold stashEntryMatches
    rw [hn, hd]

/-- Witness for `matching_case_insensitive` at concrete strings differing
only in case. -/
theorem matching_case_insensitive_witness :
    lowerStr (jstr "ASPIRIN") = lowerStr (jstr "aspirin") ∧
    (rowMatches (jstr "ASPIRIN") (jstr "5 MG") (jstr "SHELF a")
        ⟨jstr "Aspirin", jstr "5mg", jstr "Shelf A", 1⟩ =
      rowMatches (jstr "aspirin") (jstr "5 mg") (jstr "shelf A")
        ⟨jstr "Aspirin", jstr "5mg", jstr "Shelf A", 1⟩ ∧
    archiveMatches (jstr "ASPIRIN") (jstr "5 MG") (jstr "SHELF a")
        ⟨jstr "Aspirin", jstr "5 mg", jstr "shelf a"⟩ =
      archiveMatches (jstr "aspirin") (jstr "5 mg") (jstr "shelf A")
        ⟨jstr "Aspirin", jstr "5 mg", jstr "shelf a"⟩ ∧
    stashEntryMatches (jstr "ASPIRIN") (jstr "5 MG") ⟨jstr "aspirin", jstr "5 mg", 2⟩ =
      stashEntryMatches (jstr "aspirin") (jstr "5 mg") ⟨jstr "aspirin", jstr "5 mg", 2⟩) :=
  ⟨by decide,
    matching_case_insensitive (jstr "ASPIRIN") (jstr "aspirin") (jstr "5 MG") (jstr "5 mg")
      (jstr "SHELF a") (jstr "shelf A")
      ⟨jstr "Aspirin", jstr "5mg", jstr "Shelf A", 1⟩
      ⟨jstr "Aspirin", jstr "5 mg", jstr "shelf a"⟩
      ⟨jstr "aspirin", jstr "5 mg", 2⟩
      (by decide) (by decide) (by decide)⟩

/-- Claim C10: a New-Item-Merge with an alias-marked name performs no
duplicate search at all — for EVERY state it unconditionally appends one
`(name, dose, quantity)` row to the stash table and logs one ADD record with
the stash label as location, even when a stash row with the same
`(name, dose)` already exists; applying the same aliased declaration twice
therefore leaves two identical stash rows. -/
theorem aliased_add_unconditional_append (name dose location : JStr) (q : Int)
    (st : LedgerState) (ha : isAngieMode name = true) :
    addMedication name dose location q st =
      { st with
        angieStash := st.angieStash ++ [⟨stripPlusPlus name, dose, q⟩]
        activity := ⟨jstr "ADD", stripPlusPlus name, dose, jstr "Angie Stash", q⟩ ::
          st.activity } ∧
    (addMedication name dose location q (addMedication name dose location q st)).angieStash =
      st.angieStash ++ [⟨stripPlusPlus name, dose, q⟩, ⟨stripPlusPlus name, dose, q⟩] := by
  have key : ∀ s : LedgerState, addMedication name dose location q s =
      { s with
        angieStash := s.angieStash ++ [⟨stripPlusPlus name, dose, q⟩]
        activity := ⟨jstr "ADD", stripPlusPlus name, dose, jstr "Angie Stash", q⟩ ::
          s.activity } := by
    intro s
    unfold addMedication
    rw [if_pos ha]
  refine ⟨key st, ?_⟩
  rw [key st, key _]
  simp

/-- Witness for `aliased_add_unconditional_append`: an aliased declaration
against a stash that already holds the same `(name, dose)` appends a
duplicate row. -/
theorem aliased_add_unconditional_append_witness :
    isAngieMode (jstr "sparkles++Ibuprofen") = true ∧
    (addMedication (jstr "sparkles++Ibuprofen") (jstr "200mg") (jstr "Cabinet 1") 4
        ⟨[], [], [⟨jstr "Ibuprofen", jstr "200mg", 5⟩], [], []⟩ =
      { (⟨[], [], [⟨jstr "Ibuprofen", jstr "200mg", 5⟩], [], []⟩ : LedgerState) with
        angieStash := [⟨jstr "Ibuprofen", jstr "200mg", 5⟩] ++
          [⟨stripPlusPlus (jstr "sparkles++Ibuprofen"), jstr "200mg", 4⟩]
        activity := [⟨jstr "ADD", stripPlusPlus (jstr "sparkles++Ibuprofen"), jstr "200mg",
          jstr "Angie Stash", 4⟩] } ∧
    (addMedication (jstr "sparkles++Ibuprofen") (jstr "200mg") (jstr "Cabinet 1") 4
        (addMedication (jstr "sparkles++Ibuprofen") (jstr "200mg") (jstr "Cabinet 1") 4
          ⟨[], [], [⟨jstr "Ibuprofen", jstr "200mg", 5⟩], [], []⟩)).angieStash =
      [⟨jstr "Ibuprofen", jstr "200mg", 5⟩] ++
        [⟨stripPlusPlus (jstr "sparkles++Ibuprofen"), jstr "200mg", 4⟩,
         ⟨stripPlusPlus (jstr "sparkles++Ibuprofen"), jstr "200mg", 4⟩]) :=
  ⟨by decide,
    aliased_add_unconditional_append (jstr "sparkles++Ibuprofen") (jstr "200mg")
      (jstr "Cabinet 1") 4 ⟨[], [], [⟨jstr "Ibuprofen", jstr "200mg", 5⟩], [], []⟩
      (by decide)⟩
